import Mathlib

/-! # Host alive detection (src/aliveservice.c)

Shallow embedding of the alive-detection service and proofs about it.

Conventions of the embedding
* The host is little-endian with 64-bit long (LP64): a 16-bit load of the bytes
  b0 b1 is b0 + 256 * b1, and the accumulator of np_in_cksum cannot wrap for a
  buffer whose length fits an int, so it is a natural number.
* A buffer handed to a function as pointer and n is the list of its n bytes.
* Null pointers and failing calls are Option values. Dereferencing a null
  pointer is a fault of the whole call, written none in the result.
* External collaborators (GLib hash tables, the kb queue, libc, the host
  library) are modelled by their documented behaviour and named after the
  functions called in the source.
-/

namespace AliveService

/-! ## Machine integers and memory images -/

/-- One byte of memory. -/
abbrev u_char := Fin 256

/-- The s_addr member of struct in_addr: the 32-bit value the little-endian
host loads from the four address bytes, so the first octet of the dotted
address is the least significant byte. -/
abbrev in_addr := Fin 4294967296

/-- Byte number i of a machine integer, byte 0 being the least significant. -/
def byte_of (x i : Nat) : u_char := ⟨(x / 256 ^ i) % 256, Nat.mod_lt _ (by decide)⟩

/-- Memory image of a 16-bit object holding x. -/
def mem16 (x : Nat) : List u_char := [byte_of x 0, byte_of x 1]

/-- Memory image of a 32-bit object holding x. -/
def mem32 (x : Nat) : List u_char := [byte_of x 0, byte_of x 1, byte_of x 2, byte_of x 3]

/-- Host to network order for 16 bits: a byte swap on this host. -/
def htons (x : Nat) : Nat := (x % 256) * 256 + (x / 256) % 256

/-- Host to network order for 32 bits: a byte swap on this host. -/
def htonl (x : Nat) : Nat :=
  (x % 256) * 16777216 + (x / 256 % 256) * 65536 + (x / 65536 % 256) * 256 + (x / 16777216) % 256

def INT_MAX : Int := 2147483647

def AF_INET : Nat := 2

def IPPROTO_ICMP : Nat := 1

def IPPROTO_TCP : Nat := 6

def TH_SYN : Nat := 2

def ICMP_ECHO : Nat := 8

def FILTER_PORT : Nat := 9910

/-! ## np_in_cksum -/

/-- The summing part of np_in_cksum: the loop `while (n > 1)` adding one 16-bit
word per step, followed by the odd byte, which is stored into the first byte of
a zeroed u_short, its low byte on this host. -/
def np_in_cksum_sum : List u_char → Nat → Nat
  | b0 :: b1 :: rest, sum => np_in_cksum_sum rest (sum + (b0.val + 256 * b1.val))
  | [b0], sum => sum + b0.val
  | [], sum => sum

/-- The function np_in_cksum (p, n), the buffer being the n bytes at p. The
result is the u_short answer, the low 16 bits of the complement of sum. -/
def np_in_cksum (p : List u_char) : Nat :=
  let sum := np_in_cksum_sum p 0
  let sum := (sum >>> 16) + (sum &&& 0xffff)
  let sum := sum + (sum >>> 16)
  Int.toNat ((-(sum : Int) - 1) % 65536)

/-! ### RFC 1071, written from the specification -/

/-- The consecutive 16-bit host-order words of a buffer; the final byte of an
odd-length buffer is the low byte of a last word whose other byte is zero. -/
def host_words : List u_char → List Nat
  | b0 :: b1 :: rest => (b0.val + 256 * b1.val) :: host_words rest
  | [b0] => [b0.val]
  | [] => []

/-- One step of one-complement addition on 16 bits: the carry out of bit 16 is
added back in at the bottom (end-around carry). -/
def end_around_add (a w : Nat) : Nat :=
  if 65536 ≤ a + w then a + w - 65536 + 1 else a + w

/-- The Internet checksum of RFC 1071: the 16-bit complement of the
end-around-carry sum of the words. -/
def rfc1071 (b : List u_char) : Nat :=
  65535 - (host_words b).foldl end_around_add 0

/-! ## Local interfaces: islocalhost and set_src_addr -/

/-- The struct sockaddr an interface entry points to; sin_addr is the address
of its sockaddr_in view and is meaningful for the family AF_INET. -/
structure sockaddr where
  sa_family : Nat
  sin_addr : in_addr
deriving DecidableEq

/-- One entry of the list getifaddrs returns (the list itself stands for the
ifa_next chain). The member ifa_addr may be a null pointer. -/
structure ifaddrs where
  ifa_addr : Option sockaddr
deriving DecidableEq

/-- The loop of islocalhost over the interface list. It reads
`ifa->ifa_addr->sa_family` without testing ifa_addr, so an entry without an
address faults. -/
def islocalhost_loop (addr : in_addr) : List ifaddrs → Int → Option Int
  | [], ret => some ret
  | ifa :: rest, ret =>
    match ifa.ifa_addr with
    | none => none
    | some sa =>
      if sa.sa_family = AF_INET then
        if addr = sa.sin_addr then islocalhost_loop addr rest 1
        else islocalhost_loop addr rest ret
      else islocalhost_loop addr rest ret

/-- The function islocalhost. The first argument is the outcome of getifaddrs
(none when it returns -1), the second the pointer addr (none when null). -/
def islocalhost (getifaddrs : Option (List ifaddrs)) (addr : Option in_addr) : Option Int :=
  match addr with
  | none => some (-1)
  | some a =>
    if a.val = 0 then some 1
    else if a.val &&& htonl 0xFF000000 = htonl 0x7F000000 then some 1
    else
      match getifaddrs with
      | none => some (-1)
      | some ifaddr => islocalhost_loop a ifaddr 0

/-- The loop of set_src_addr: entries without an address are skipped and every
AF_INET entry is copied over src. -/
def set_src_addr_loop : List ifaddrs → in_addr → in_addr
  | [], src => src
  | ifa :: rest, src =>
    match ifa.ifa_addr with
    | none => set_src_addr_loop rest src
    | some sa =>
      if sa.sa_family = AF_INET then set_src_addr_loop rest sa.sin_addr
      else set_src_addr_loop rest src

/-- The function set_src_addr; the result is the value left in `*src`. The
first argument is what gvm_source_addr writes there. -/
def set_src_addr (gvm_source_addr : in_addr) (getifaddrs : Option (List ifaddrs)) : in_addr :=
  let src := gvm_source_addr
  if src.val ≠ 0 then src
  else
    match getifaddrs with
    | none => src
    | some ifaddr => set_src_addr_loop ifaddr src

/-- The IPv4 addresses of the interface list, in enumeration order. -/
def ipv4_addrs : List ifaddrs → List in_addr
  | [] => []
  | ifa :: rest =>
    match ifa.ifa_addr with
    | none => ipv4_addrs rest
    | some sa => if sa.sa_family = AF_INET then sa.sin_addr :: ipv4_addrs rest else ipv4_addrs rest

/-! ## Hosts, hash tables and the queue -/

/-- The struct in6_addr seen as its four 32-bit words s6_addr32. -/
structure in6_addr where
  s6_addr32_0 : in_addr
  s6_addr32_1 : in_addr
  s6_addr32_2 : in_addr
  s6_addr32_3 : in_addr
deriving DecidableEq

/-- The macro IN6_IS_ADDR_V4MAPPED of netinet/in.h. -/
def IN6_IS_ADDR_V4MAPPED (a : in6_addr) : Bool :=
  a.s6_addr32_0.val = 0 && a.s6_addr32_1.val = 0 && a.s6_addr32_2.val = htonl 0xffff

/-- A host handle of the host library, seen through the two accessors the
source calls: gvm_host_value_str and the address gvm_host_get_addr6 leaves in
its out parameter. -/
structure gvm_host_t where
  value_str : String
  addr6 : in6_addr
deriving DecidableEq

/-- A raw datagram or captured frame. -/
abbrev Packet := List u_char

/-- GLib g_hash_table_add on a table used as a set: true exactly when the key
was not yet present. -/
def g_hash_table_add (t : List String) (key : String) : List String × Bool :=
  if key ∈ t then (t, false) else (t ++ [key], true)

/-- GLib g_hash_table_contains. -/
def g_hash_table_contains (t : List (String × gvm_host_t)) (key : String) : Bool :=
  t.any (fun kv => kv.1 == key)

/-- GLib g_hash_table_remove. -/
def g_hash_table_remove (t : List (String × gvm_host_t)) (key : String) :
    List (String × gvm_host_t) :=
  t.filter (fun kv => kv.1 != key)

/-- GLib g_hash_table_insert: the value of an existing key is replaced. -/
def g_hash_table_insert (t : List (String × gvm_host_t)) (key : String) (value : gvm_host_t) :
    List (String × gvm_host_t) :=
  if g_hash_table_contains t key then t.map (fun kv => if kv.1 == key then (kv.1, value) else kv)
  else t ++ [(key, value)]

/-- The libc function inet_ntoa: the four address bytes in memory order, in
decimal, separated by dots. -/
def inet_ntoa (a : in_addr) : String :=
  toString (byte_of a.val 0).val ++ "." ++ toString (byte_of a.val 1).val ++ "." ++
    toString (byte_of a.val 2).val ++ "." ++ toString (byte_of a.val 3).val

/-- The global variables of the source: the two hash tables and main_kb, the
latter as the sequence of strings pushed under the key alive_detection, oldest
first. -/
structure Globals where
  alivehosts : List String
  targethosts : List (String × gvm_host_t)
  main_kb : List String
deriving DecidableEq

/-! ## The queue consumer -/

inductive alive_detection where
  | ALIVE_DETECTION_FINISHED
  | ALIVE_DETECTION_SCANNING
  | ALIVE_DETECTION_OK
  | ALIVE_DETECTION_INIT
  | ALIVE_DETECTION_ERROR
deriving DecidableEq

open alive_detection

/-- The function get_alive_host_str. The argument is main_kb at the time of the
call: none while it is still a null pointer, otherwise the outcome of
kb_item_pop_str. The result is the returned string and the flag. -/
def get_alive_host_str (main_kb : Option (Option String)) : Option String × alive_detection :=
  match main_kb with
  | none => (none, ALIVE_DETECTION_INIT)
  | some none => (none, ALIVE_DETECTION_SCANNING)
  | some (some host) =>
    if host = "finish" then (none, ALIVE_DETECTION_FINISHED)
    else (some host, ALIVE_DETECTION_OK)

/-- What a call of get_host_from_queue did: the host it returned, and how often
it slept one second and polled the queue. -/
structure queue_wait where
  host : Option gvm_host_t
  sleeps : Nat
  pops : Nat
deriving DecidableEq

/-- The while loop of get_host_from_queue. The condition ends in `timeout--`,
which is false exactly when timeout is 0; timeout is positive on entry, so it
is a natural number here. The function kb gives the state of main_kb at each
poll, numbered from 0. -/
def get_host_from_queue_loop (kb : Nat → Option (Option String))
    (gvm_host_from_str : String → Option gvm_host_t) :
    Nat → Option gvm_host_t → alive_detection → Nat → Nat →
      Option gvm_host_t × alive_detection × Nat × Nat
  | 0, host, flag, sleeps, pops => (host, flag, sleeps, pops)
  | timeout + 1, host, flag, sleeps, pops =>
    if host.isNone && flag != ALIVE_DETECTION_FINISHED then
      let r := get_alive_host_str (kb pops)
      let host := r.1.bind gvm_host_from_str
      get_host_from_queue_loop kb gvm_host_from_str timeout host r.2 (sleeps + 1) (pops + 1)
    else (host, flag, sleeps, pops)

/-- The function get_host_from_queue. The host library maps a null string to a
null host, hence the bind. -/
def get_host_from_queue (timeout : Int) (kb : Nat → Option (Option String))
    (gvm_host_from_str : String → Option gvm_host_t) : queue_wait :=
  let timeout := if timeout ≤ 0 then INT_MAX else timeout
  let r := get_alive_host_str (kb 0)
  let host := r.1.bind gvm_host_from_str
  let l := get_host_from_queue_loop kb gvm_host_from_str timeout.toNat host r.2 0 1
  let host := if l.2.1 = ALIVE_DETECTION_FINISHED then none else l.1
  ⟨host, l.2.2.1, l.2.2.2⟩

/-! ## Packet headers -/

/-- Modelled from the spec: the declaration of struct ip (netinet/ip.h) is not
part of the source file; this is the 20-byte IPv4 header, version 4 and header
length sharing the first byte. -/
structure ip where
  ip_hl : Nat
  ip_v : Nat
  ip_tos : Nat
  ip_len : Nat
  ip_id : Nat
  ip_off : Nat
  ip_ttl : Nat
  ip_p : Nat
  ip_sum : Nat
  ip_src : in_addr
  ip_dst : in_addr

/-- The 20 bytes of a struct ip in memory. -/
def ip.mem (h : ip) : List u_char :=
  [byte_of (h.ip_hl % 16 + 16 * (h.ip_v % 16)) 0, byte_of h.ip_tos 0] ++ mem16 h.ip_len ++
    mem16 h.ip_id ++ mem16 h.ip_off ++ [byte_of h.ip_ttl 0, byte_of h.ip_p 0] ++
    mem16 h.ip_sum ++ mem32 h.ip_src.val ++ mem32 h.ip_dst.val

/-- Modelled from the spec: the declaration of struct tcphdr (netinet/tcp.h) is
not part of the source file; this is the 20-byte TCP header with the th_ member
names the source uses. -/
structure tcphdr where
  th_sport : Nat
  th_dport : Nat
  th_seq : Nat
  th_ack : Nat
  th_x2 : Nat
  th_off : Nat
  th_flags : Nat
  th_win : Nat
  th_sum : Nat
  th_urp : Nat

/-- The 20 bytes of a struct tcphdr in memory. -/
def tcphdr.mem (t : tcphdr) : List u_char :=
  mem16 t.th_sport ++ mem16 t.th_dport ++ mem32 t.th_seq ++ mem32 t.th_ack ++
    [byte_of (t.th_x2 % 16 + 16 * (t.th_off % 16)) 0, byte_of t.th_flags 0] ++
    mem16 t.th_win ++ mem16 t.th_sum ++ mem16 t.th_urp

/-- The struct pseudohdr of the source. -/
structure pseudohdr where
  saddr : in_addr
  daddr : in_addr
  zero : Nat
  protocol : Nat
  length : Nat
  tcpheader : tcphdr

/-- The 12 + 20 bytes of a struct pseudohdr in memory. -/
def pseudohdr.mem (p : pseudohdr) : List u_char :=
  mem32 p.saddr.val ++ mem32 p.daddr.val ++ [byte_of p.zero 0, byte_of p.protocol 0] ++
    mem16 p.length ++ p.tcpheader.mem

/-- Modelled from the spec: the declaration of struct icmp (netinet/ip_icmp.h)
is not part of the source file; this is the 8-byte ICMP echo header. The C
struct is 28 bytes long: the header is followed by a 20-byte data union, which
the source leaves zeroed. -/
structure icmp where
  icmp_type : Nat
  icmp_code : Nat
  icmp_cksum : Nat
  icmp_id : Nat
  icmp_seq : Nat

/-- The 28 bytes of a struct icmp in memory. -/
def icmp.mem (c : icmp) : List u_char :=
  [byte_of c.icmp_type 0, byte_of c.icmp_code 0] ++ mem16 c.icmp_cksum ++ mem16 c.icmp_id ++
    mem16 c.icmp_seq ++ List.replicate 20 0

/-! ## Sending probes -/

/-- What the senders read from their surroundings: the address gvm_source_addr
yields, the outcome of getifaddrs (none when it fails), and the values of the
successive calls of rand. -/
structure Env where
  gvm_source_addr : in_addr
  getifaddrs : Option (List ifaddrs)
  rand : Nat → Nat

/-- The function send_icmps as the callback of g_hash_table_foreach. The
argument n counts the calls of rand made so far. The result is none when
islocalhost faults, otherwise the datagrams handed to sendto and the new
count. -/
def send_icmps (env : Env) (n : Nat) (_key : String) (value : gvm_host_t) :
    Option (List Packet × Nat) :=
  let dst := value.addr6
  if IN6_IS_ADDR_V4MAPPED dst != true then some ([], n)
  else
    let inaddr := dst.s6_addr32_3
    match islocalhost env.getifaddrs (some inaddr) with
    | none => none
    | some r =>
      let src := if r > 0 then dst.s6_addr32_3 else set_src_addr env.gvm_source_addr env.getifaddrs
      let iph : ip :=
        { ip_hl := 5, ip_off := htons 0, ip_v := 4, ip_len := htons 40, ip_tos := 0,
          ip_p := IPPROTO_ICMP, ip_id := env.rand n, ip_ttl := 0x40, ip_src := src,
          ip_dst := inaddr, ip_sum := 0 }
      let iph := { iph with ip_sum := np_in_cksum iph.mem }
      let icmph : icmp :=
        { icmp_type := ICMP_ECHO, icmp_code := 0, icmp_id := env.rand (n + 1), icmp_seq := 0,
          icmp_cksum := 0 }
      let icmph := { icmph with icmp_cksum := np_in_cksum (icmph.mem.take (48 - 28)) }
      some ([(iph.mem ++ icmph.mem).take 40], n + 2)

/-- The array ports of tcp_syns. -/
def ports : List Nat :=
  [139, 135, 445, 80, 22, 515, 23, 21, 6000, 1025,
   25, 111, 1028, 9100, 1029, 79, 497, 548, 5000, 1917,
   53, 161, 9001, 65535, 443, 113, 993, 8080]

/-- The body of the for loop of tcp_syns for the array entry ports_i: the 40
bytes handed to sendto. The last two arguments are the values of the two calls
of rand. -/
def tcp_syn_packet (src inaddr : in_addr) (ports_i : Nat) (rand_id rand_seq : Nat) : Packet :=
  let port := 0
  let iph : ip :=
    { ip_hl := 5, ip_off := htons 0, ip_v := 4, ip_len := htons 40, ip_tos := 0,
      ip_p := IPPROTO_TCP, ip_id := rand_id, ip_ttl := 0x40, ip_src := src,
      ip_dst := inaddr, ip_sum := 0 }
  let iph := { iph with ip_sum := np_in_cksum iph.mem }
  let tcp : tcphdr :=
    { th_sport := htons FILTER_PORT, th_flags := TH_SYN,
      th_dport := if port ≠ 0 then htons port else htons ports_i,
      th_seq := rand_seq, th_ack := 0, th_x2 := 0, th_off := 5, th_win := 2048, th_urp := 0,
      th_sum := 0 }
  let pseudoheader : pseudohdr :=
    { saddr := iph.ip_src, daddr := iph.ip_dst, zero := 0, protocol := 6, length := htons 20,
      tcpheader := tcp }
  let tcp := { tcp with th_sum := np_in_cksum pseudoheader.mem }
  (iph.mem ++ tcp.mem).take 40

/-- The for loop of tcp_syns over the remaining array entries. -/
def tcp_syns_loop (env : Env) (src inaddr : in_addr) : List Nat → Nat → List Packet × Nat
  | [], n => ([], n)
  | ports_i :: rest, n =>
    let r := tcp_syns_loop env src inaddr rest (n + 2)
    (tcp_syn_packet src inaddr ports_i (env.rand n) (env.rand (n + 1)) :: r.1, r.2)

/-- The function tcp_syns as the callback of g_hash_table_foreach, with the
same conventions as send_icmps. -/
def tcp_syns (env : Env) (n : Nat) (_key : String) (value : gvm_host_t) :
    Option (List Packet × Nat) :=
  let dst := value.addr6
  if IN6_IS_ADDR_V4MAPPED dst != true then some ([], n)
  else
    let inaddr := dst.s6_addr32_3
    match islocalhost env.getifaddrs (some inaddr) with
    | none => none
    | some r =>
      let src := if r > 0 then dst.s6_addr32_3 else set_src_addr env.gvm_source_addr env.getifaddrs
      some (tcp_syns_loop env src inaddr ports n)

/-! ## Capture and orchestration -/

/-- The address memcpy assembles from four bytes of a frame. -/
def in_addr_of_bytes (b0 b1 b2 b3 : u_char) : in_addr :=
  ⟨b0.val + 256 * b1.val + 65536 * b2.val + 16777216 * b3.val, by omega⟩

/-- The function got_packet: the pcap callback, as a step on the globals. Bytes
past the end of the captured frame read as zero. -/
def got_packet (g : Globals) (packet : Packet) : Globals :=
  let sniffed_addr := in_addr_of_bytes (packet.getD (26 + 2) 0) (packet.getD (26 + 2 + 1) 0)
    (packet.getD (26 + 2 + 2) 0) (packet.getD (26 + 2 + 3) 0)
  let addr_str := inet_ntoa sniffed_addr
  let added := g_hash_table_add g.alivehosts addr_str
  if added.2 && g_hash_table_contains g.targethosts addr_str == true then
    { alivehosts := added.1, targethosts := g.targethosts, main_kb := g.main_kb ++ [addr_str] }
  else
    { alivehosts := added.1, targethosts := g.targethosts, main_kb := g.main_kb }

/-- The function sniffer_thread: pcap_loop hands every captured frame of the
phase to got_packet, in order. -/
def sniffer_thread (g : Globals) (captured : List Packet) : Globals :=
  captured.foldl got_packet g

/-- The function exclude, the callback that removes one key from targethosts. -/
def exclude (key : String) (targethosts : List (String × gvm_host_t)) :
    List (String × gvm_host_t) :=
  g_hash_table_remove targethosts key

/-- The call `g_hash_table_foreach (alivehosts, exclude, targethosts)`. -/
def exclude_alivehosts (g : Globals) : Globals :=
  { alivehosts := g.alivehosts,
    targethosts := g.alivehosts.foldl (fun t key => exclude key t) g.targethosts,
    main_kb := g.main_kb }

/-- The call of g_hash_table_foreach with a sending callback: the callback
runs once per entry. The result lists, per entry, the key and what the callback
sent; it is none as soon as one call faults. -/
def g_hash_table_foreach (func : Nat → String → gvm_host_t → Option (List Packet × Nat)) :
    List (String × gvm_host_t) → Nat → Option (List (String × List Packet) × Nat)
  | [], n => some ([], n)
  | kv :: rest, n =>
    match func n kv.1 kv.2 with
    | none => none
    | some sent =>
      match g_hash_table_foreach func rest sent.2 with
      | none => none
      | some calls => some ((kv.1, sent.1) :: calls.1, calls.2)

/-- What a completed call of ping leaves behind: the globals, and per phase the
keys the sending callback ran for with the datagrams it sent. -/
structure ping_trace where
  globals : Globals
  icmp_calls : List (String × List Packet)
  tcp_calls : List (String × List Packet)

/-- The function ping. The frames captured while the sniffer thread of each
phase runs are given; the thread only adds to alivehosts and main_kb, which the
sending callbacks do not read, so each phase is the sends followed by the
capture. -/
def ping (env : Env) (g : Globals) (icmp_captured tcp_captured : List Packet) :
    Option ping_trace :=
  match g_hash_table_foreach (send_icmps env) g.targethosts 0 with
  | none => none
  | some icmp_calls =>
    let g := sniffer_thread g icmp_captured
    let g := exclude_alivehosts g
    match g_hash_table_foreach (tcp_syns env) g.targethosts icmp_calls.2 with
    | none => none
    | some tcp_calls =>
      let g := sniffer_thread g tcp_captured
      let g := exclude_alivehosts g
      some { globals := g, icmp_calls := icmp_calls.1, tcp_calls := tcp_calls.1 }

/-- The function start_alive_detection: the strings pushed under the key
alive_detection during the run, oldest first; none when the run faults before
its end. -/
def start_alive_detection (env : Env) (hosts : List gvm_host_t)
    (icmp_captured tcp_captured : List Packet) : Option (List String) :=
  let targethosts :=
    hosts.foldl (fun t host => g_hash_table_insert t host.value_str host) []
  let alivehosts : List String := []
  let g : Globals := { alivehosts := alivehosts, targethosts := targethosts, main_kb := [] }
  match ping env g icmp_captured tcp_captured with
  | none => none
  | some r => some (r.globals.main_kb ++ ["finish"])

/-! ## Definitions used in the statements -/

/-- The buffer pre, a 16-bit field holding c, post. -/
def with_cksum_field (pre post : List u_char) (c : Nat) : List u_char :=
  pre ++ mem16 c ++ post

/-- The value np_in_cksum takes on an accumulated sum. -/
def cksum_of_sum (sum : Nat) : Nat :=
  65535 - ((sum / 65536 + sum % 65536) + (sum / 65536 + sum % 65536) / 65536) % 65536

/-- The representative in 1..65535 of a positive sum modulo 65535, and 0 for 0:
the value of the end-around-carry sum. -/
def ones_sum (s : Nat) : Nat := if s = 0 then 0 else (s - 1) % 65535 + 1

/-- A buffer of 262148 bytes: 131073 words 0xffff followed by the word 1. -/
def long_buffer : List u_char := List.replicate (2 * 131073) 255 ++ [1, 0]

/-- The source port of a datagram: bytes 20 and 21, in network order. -/
def th_sport_of (p : Packet) : Nat := 256 * (p.getD 20 0).val + (p.getD 21 0).val

/-- The destination port of a datagram: bytes 22 and 23, in network order. -/
def th_dport_of (p : Packet) : Nat := 256 * (p.getD 22 0).val + (p.getD 23 0).val

/-- The 12-byte TCP pseudo-header: source address, destination address, a zero
byte, protocol 6 and the TCP length 20 in network order. -/
def tcp_pseudo_header (src dst : in_addr) : List u_char :=
  mem32 src.val ++ mem32 dst.val ++ [0, 6] ++ mem16 (htons 20)

/-- The pseudo-header a receiver forms from the addresses in the IPv4 header of
a datagram (bytes 12 to 19). -/
def pseudo_header_of (p : Packet) : List u_char :=
  (p.drop 12).take 8 ++ [0, 6] ++ mem16 (htons 20)

/-- The IPv4 host 10.0.0.5 as the host library hands it over, v4-mapped. -/
def host_10_0_0_5 : gvm_host_t := ⟨"10.0.0.5", ⟨0, 0, 0xFFFF0000, 0x0500000A⟩⟩

/-- The loopback host 127.0.0.1, v4-mapped. -/
def host_127_0_0_1 : gvm_host_t := ⟨"127.0.0.1", ⟨0, 0, 0xFFFF0000, 0x0100007F⟩⟩

/-- Surroundings with no preferred source address and two interface entries:
lo with 127.0.0.1, and an entry without an address (ifa_addr null), as
getifaddrs reports for an interface that has none. -/
def env_null_ifa_addr : Env :=
  ⟨0, some [⟨some ⟨AF_INET, 0x0100007F⟩⟩, ⟨none⟩], fun _ => 0⟩

/-- Surroundings with no preferred source address and the interfaces lo
(127.0.0.1) and eth0 (10.0.0.10). -/
def env_two_ifs : Env :=
  ⟨0, some [⟨some ⟨AF_INET, 0x0100007F⟩⟩, ⟨some ⟨AF_INET, 0x0A00000A⟩⟩], fun n => 7919 * n⟩

/-- A captured frame whose bytes 28 to 31 hold the address a. -/
def frame_from (a : in_addr) : Packet := List.replicate 28 0 ++ mem32 a.val

/-- The globals at the start of a run: both the seen-alive set and the queue
are empty. -/
def initial_globals (targethosts : List (String × gvm_host_t)) : Globals :=
  { alivehosts := [], targethosts := targethosts, main_kb := [] }

/-- What got_packet maintains: no string was pushed twice, every pushed string
is in alivehosts, and every pushed string is the text of an address. -/
def pushed_once (g : Globals) : Prop :=
  g.main_kb.Nodup ∧ (∀ s ∈ g.main_kb, s ∈ g.alivehosts) ∧ (∀ s ∈ g.main_kb, ∃ a, s = inet_ntoa a)

/-- Every entry the interface enumeration yields has an address. -/
def all_addressed (env : Env) : Prop :=
  ∀ l, env.getifaddrs = some l → ∀ ifa ∈ l, ifa.ifa_addr ≠ none

/-- The total-length field of the IPv4 header of a datagram: bytes 2 and 3, in
network order. -/
def ip_len_of (p : Packet) : Nat := 256 * (p.getD 2 0).val + (p.getD 3 0).val

/-- The datagram send_icmps hands to sendto, as a function of the source
address chosen, the destination and the values of its two calls of rand: the
first 40 bytes of the 48-byte buffer packet. -/
def icmp_echo_packet (src inaddr : in_addr) (rand_ip_id rand_icmp_id : Nat) : Packet :=
  let iph : ip :=
    { ip_hl := 5, ip_off := htons 0, ip_v := 4, ip_len := htons 40, ip_tos := 0,
      ip_p := IPPROTO_ICMP, ip_id := rand_ip_id, ip_ttl := 0x40, ip_src := src,
      ip_dst := inaddr, ip_sum := 0 }
  let iph := { iph with ip_sum := np_in_cksum iph.mem }
  let icmph : icmp :=
    { icmp_type := ICMP_ECHO, icmp_code := 0, icmp_id := rand_icmp_id, icmp_seq := 0,
      icmp_cksum := 0 }
  let icmph := { icmph with icmp_cksum := np_in_cksum (icmph.mem.take (48 - 28)) }
  (iph.mem ++ icmph.mem).take 40

/-! # Theorems -/

/-! ## Checksum: auxiliary facts -/

theorem np_in_cksum_eq (p : List u_char) :
    np_in_cksum p = cksum_of_sum (np_in_cksum_sum p 0) := by
  unfold np_in_cksum cksum_of_sum
  have h1 : ∀ s : Nat, s >>> 16 = s / 65536 := fun s => by
    rw [Nat.shiftRight_eq_div_pow]
  have h2 : ∀ s : Nat, s &&& 0xffff = s % 65536 := fun s => by
    have := Nat.and_pow_two_sub_one_eq_mod s 16
    simpa using this
  simp only [h1, h2]
  omega

theorem cksum_of_sum_small (s : Nat) (h : s < 4294967296) :
    cksum_of_sum s = 65535 - ones_sum s := by
  unfold cksum_of_sum ones_sum
  obtain ⟨a, b, hs, hb, ha⟩ : ∃ a b, s = 65536 * a + b ∧ b < 65536 ∧ a < 65536 :=
    ⟨s / 65536, s % 65536, by omega, by omega, by omega⟩
  have e1 : s / 65536 = a := by omega
  have e2 : s % 65536 = b := by omega
  rw [e1, e2]
  rcases Nat.lt_or_ge (a + b) 65536 with h1 | h1
  · have e3 : (a + b) / 65536 = 0 := by omega
    rw [e3]
    split
    · omega
    · have e4 : (s - 1) / 65535 = a := by omega
      omega
  · have e3 : (a + b) / 65536 = 1 := by omega
    rw [e3]
    have e4 : (s - 1) / 65535 = a + 1 := by omega
    split <;> omega

theorem ones_sum_le (s : Nat) : ones_sum s ≤ 65535 := by
  unfold ones_sum; split <;> omega

theorem ones_sum_add_compl (s : Nat) : ones_sum (s + (65535 - ones_sum s)) = 65535 := by
  unfold ones_sum
  split
  · rename_i h; subst h; simp
  · rename_i h
    have hq : s - 1 = 65535 * ((s - 1) / 65535) + (s - 1) % 65535 := by omega
    generalize (s - 1) / 65535 = q at hq
    generalize hr : (s - 1) % 65535 = r at hq
    have hr2 : r < 65535 := by omega
    have : s + (65535 - (r + 1)) - 1 = 65535 * q + 65534 := by omega
    rw [if_neg (by omega), this]
    omega

theorem ones_sum_step (s w : Nat) (hw : w < 65536) :
    end_around_add (ones_sum s) w = ones_sum (s + w) := by
  unfold end_around_add ones_sum
  by_cases hs : s = 0
  · subst hs
    by_cases hw0 : w = 0
    · subst hw0; simp
    · simp only [if_true, Nat.zero_add, if_neg hw0]
      rw [if_neg (by omega)]
      omega
  · have hsw : s + w ≠ 0 := by omega
    simp only [if_neg hs, if_neg hsw]
    have hq : s - 1 = 65535 * ((s - 1) / 65535) + (s - 1) % 65535 := by omega
    generalize (s - 1) / 65535 = q at hq
    generalize hr : (s - 1) % 65535 = r at hq ⊢
    have hr2 : r < 65535 := by omega
    split
    · have e : (s + w - 1) / 65535 = q + 1 := by omega
      omega
    · have e : (s + w - 1) / 65535 = q := by omega
      omega

theorem np_in_cksum_sum_acc : ∀ (p : List u_char) (acc : Nat),
    np_in_cksum_sum p acc = acc + np_in_cksum_sum p 0
  | b0 :: b1 :: rest, acc => by
    rw [np_in_cksum_sum, np_in_cksum_sum_acc rest, np_in_cksum_sum,
      np_in_cksum_sum_acc rest (0 + _)]
    omega
  | [b0], acc => by simp [np_in_cksum_sum]
  | [], acc => by simp [np_in_cksum_sum]

theorem np_in_cksum_sum_append : ∀ (pre l : List u_char) (acc : Nat), pre.length % 2 = 0 →
    np_in_cksum_sum (pre ++ l) acc = np_in_cksum_sum l (np_in_cksum_sum pre acc)
  | b0 :: b1 :: rest, l, acc, h => by
    have h2 : rest.length % 2 = 0 := by simp only [List.length_cons] at h; omega
    simp only [List.cons_append, np_in_cksum_sum]
    exact np_in_cksum_sum_append rest l _ h2
  | [b0], l, acc, h => by simp at h
  | [], l, acc, _ => by simp [np_in_cksum_sum]

theorem np_in_cksum_sum_le : ∀ (p : List u_char),
    np_in_cksum_sum p 0 ≤ 65535 * ((p.length + 1) / 2)
  | b0 :: b1 :: rest => by
    have ih := np_in_cksum_sum_le rest
    rw [np_in_cksum_sum, np_in_cksum_sum_acc]
    simp only [List.length_cons]
    have := b0.isLt
    have := b1.isLt
    omega
  | [b0] => by
    have := b0.isLt
    simp [np_in_cksum_sum]; omega
  | [] => by simp [np_in_cksum_sum]

theorem np_in_cksum_sum_field (pre post : List u_char) (c : Nat) (hpre : pre.length % 2 = 0)
    (hc : c < 65536) :
    np_in_cksum_sum (with_cksum_field pre post c) 0 =
      np_in_cksum_sum pre 0 + np_in_cksum_sum post 0 + c := by
  have e : with_cksum_field pre post c = pre ++ (byte_of c 0 :: byte_of c 1 :: post) := by
    simp [with_cksum_field, mem16]
  rw [e, np_in_cksum_sum_append pre _ 0 hpre, np_in_cksum_sum, np_in_cksum_sum_acc post]
  simp only [byte_of, pow_zero, pow_one, Nat.div_one]
  omega

theorem np_in_cksum_lt (p : List u_char) : np_in_cksum p < 65536 := by
  rw [np_in_cksum_eq]; unfold cksum_of_sum; omega

theorem host_words_foldl : ∀ (b : List u_char) (s : Nat),
    (host_words b).foldl end_around_add (ones_sum s) = ones_sum (s + np_in_cksum_sum b 0)
  | b0 :: b1 :: rest, s => by
    have := b0.isLt
    have := b1.isLt
    rw [host_words, List.foldl_cons, ones_sum_step _ _ (by omega), host_words_foldl rest,
      np_in_cksum_sum, np_in_cksum_sum_acc rest (0 + _)]
    congr 1; omega
  | [b0], s => by
    have := b0.isLt
    rw [host_words, List.foldl_cons, ones_sum_step _ _ (by omega)]
    simp [np_in_cksum_sum]
  | [], s => by simp [host_words, np_in_cksum_sum]

theorem rfc1071_eq (b : List u_char) : rfc1071 b = 65535 - ones_sum (np_in_cksum_sum b 0) := by
  have h := host_words_foldl b 0
  rw [show ones_sum 0 = 0 from rfl, Nat.zero_add] at h
  rw [rfc1071, h]

theorem np_in_cksum_sum_replicate (x : u_char) (rest : List u_char) : ∀ (k acc : Nat),
    np_in_cksum_sum (List.replicate (2 * k) x ++ rest) acc =
      np_in_cksum_sum rest (acc + k * (x.val + 256 * x.val))
  | 0, acc => by simp
  | k + 1, acc => by
    rw [show 2 * (k + 1) = (2 * k + 1) + 1 from by omega, List.replicate_succ,
      List.replicate_succ, List.cons_append, List.cons_append, np_in_cksum_sum,
      np_in_cksum_sum_replicate x rest k]
    congr 1
    rw [Nat.add_mul]; omega

/-! ## C1 and C2: the checksum -/

theorem long_buffer_sum (acc : Nat) : np_in_cksum_sum long_buffer acc = acc + 8589869056 := by
  unfold long_buffer
  rw [np_in_cksum_sum_replicate]
  simp only [np_in_cksum_sum]
  have e1 : 131073 * ((255 : u_char).val + 256 * (255 : u_char).val) = 8589869055 := by decide
  have e2 : (1 : u_char).val + 256 * (0 : u_char).val = 1 := by decide
  rw [e1, e2]

/-- C1, refuted as stated: with the field at offset 0 of a 262150-byte buffer,
the checksum computed over the zeroed buffer is 65535, and verifying the buffer
that holds it yields 65535, not 0. -/
theorem np_in_cksum_verify_long_buffer :
    ([] : List u_char).length % 2 = 0 ∧
    np_in_cksum (with_cksum_field [] long_buffer 0) = 65535 ∧
    np_in_cksum (with_cksum_field [] long_buffer
      (np_in_cksum (with_cksum_field [] long_buffer 0))) ≠ 0 := by
  have h0 : np_in_cksum (with_cksum_field [] long_buffer 0) = 65535 := by
    rw [np_in_cksum_eq, np_in_cksum_sum_field [] long_buffer 0 rfl (by decide), long_buffer_sum]
    decide
  refine ⟨rfl, h0, ?_⟩
  rw [h0, np_in_cksum_eq, np_in_cksum_sum_field [] long_buffer 65535 rfl (by decide),
    long_buffer_sum]
  decide

theorem np_in_cksum_field_valid (pre post : List u_char) (hpre : pre.length % 2 = 0)
    (hsum : np_in_cksum_sum (with_cksum_field pre post 0) 0 + 65535 < 4294967296) :
    np_in_cksum (with_cksum_field pre post (np_in_cksum (with_cksum_field pre post 0))) = 0 := by
  have hs0 : np_in_cksum_sum (with_cksum_field pre post 0) 0 =
      np_in_cksum_sum pre 0 + np_in_cksum_sum post 0 := by
    rw [np_in_cksum_sum_field pre post 0 hpre (by decide)]; rfl
  rw [hs0] at hsum
  generalize hS : np_in_cksum_sum pre 0 + np_in_cksum_sum post 0 = S at hs0 hsum
  have hc : np_in_cksum (with_cksum_field pre post 0) = 65535 - ones_sum S := by
    rw [np_in_cksum_eq, hs0, cksum_of_sum_small S (by omega)]
  have hle := ones_sum_le S
  rw [hc, np_in_cksum_eq, np_in_cksum_sum_field pre post _ hpre (by omega), hS,
    cksum_of_sum_small _ (by omega), ones_sum_add_compl]

theorem np_in_cksum_sum_field_le (pre post : List u_char) (hpre : pre.length % 2 = 0)
    (hlen : pre.length + 2 + post.length ≤ 131074) :
    np_in_cksum_sum (with_cksum_field pre post 0) 0 + 65535 < 4294967296 := by
  have hb1 := np_in_cksum_sum_le pre
  have hb2 := np_in_cksum_sum_le post
  rw [np_in_cksum_sum_field pre post 0 hpre (by decide)]
  have : (pre.length + 1) / 2 + (post.length + 1) / 2 ≤ 65536 := by omega
  have := Nat.mul_le_mul_left 65535 this
  omega

theorem np_in_cksum_field_valid_of_length (pre post : List u_char) (hpre : pre.length % 2 = 0)
    (hlen : pre.length + 2 + post.length ≤ 131074) :
    np_in_cksum (with_cksum_field pre post (np_in_cksum (with_cksum_field pre post 0))) = 0 :=
  np_in_cksum_field_valid pre post hpre (np_in_cksum_sum_field_le pre post hpre hlen)

theorem np_in_cksum_field_valid_filled (pre post : List u_char) (hpre : pre.length % 2 = 0)
    (hsum : np_in_cksum_sum
      (with_cksum_field pre post (np_in_cksum (with_cksum_field pre post 0))) 0 < 4294967296) :
    np_in_cksum (with_cksum_field pre post (np_in_cksum (with_cksum_field pre post 0))) = 0 := by
  have hs0 : np_in_cksum_sum (with_cksum_field pre post 0) 0 =
      np_in_cksum_sum pre 0 + np_in_cksum_sum post 0 := by
    rw [np_in_cksum_sum_field pre post 0 hpre (by decide)]; rfl
  have hlt := np_in_cksum_lt (with_cksum_field pre post 0)
  rw [np_in_cksum_sum_field pre post _ hpre hlt] at hsum
  generalize hS : np_in_cksum_sum pre 0 + np_in_cksum_sum post 0 = S at hs0 hsum
  have hc : np_in_cksum (with_cksum_field pre post 0) = 65535 - ones_sum S := by
    rw [np_in_cksum_eq, hs0, cksum_of_sum_small S (by omega)]
  have hle := ones_sum_le S
  rw [hc] at hsum
  rw [hc, np_in_cksum_eq, np_in_cksum_sum_field pre post _ hpre (by omega), hS,
    cksum_of_sum_small _ hsum, ones_sum_add_compl]

/-- C1, amended: take a buffer with a 16-bit field at an even offset, and store
into the field, in host order, the checksum np_in_cksum computes over the
buffer with the field zeroed. If the 16-bit words of the buffer sum to less
than 2^32 once the field is filled, in particular if the buffer has at most
131074 bytes, np_in_cksum over the resulting buffer returns 0. -/
theorem np_in_cksum_verify (pre post : List u_char) (hpre : pre.length % 2 = 0) :
    (np_in_cksum_sum
        (with_cksum_field pre post (np_in_cksum (with_cksum_field pre post 0))) 0 < 4294967296 →
      np_in_cksum (with_cksum_field pre post (np_in_cksum (with_cksum_field pre post 0))) = 0) ∧
    (pre.length + 2 + post.length ≤ 131074 →
      np_in_cksum (with_cksum_field pre post (np_in_cksum (with_cksum_field pre post 0))) = 0) :=
  ⟨np_in_cksum_field_valid_filled pre post hpre, np_in_cksum_field_valid_of_length pre post hpre⟩

theorem np_in_cksum_verify_witness :
    ([0x45, 0] : List u_char).length % 2 = 0 ∧
      np_in_cksum_sum (with_cksum_field [0x45, 0] [0x40, 6]
        (np_in_cksum (with_cksum_field [0x45, 0] [0x40, 6] 0))) 0 < 4294967296 ∧
      ([0x45, 0] : List u_char).length + 2 + ([0x40, 6] : List u_char).length ≤ 131074 ∧
      np_in_cksum (with_cksum_field [0x45, 0] [0x40, 6]
        (np_in_cksum (with_cksum_field [0x45, 0] [0x40, 6] 0))) = 0 ∧
      np_in_cksum (with_cksum_field [0x45, 0] [0x40, 6]
        (np_in_cksum (with_cksum_field [0x45, 0] [0x40, 6] 0))) = 0 :=
  ⟨by decide, by decide, by decide,
    (np_in_cksum_verify [0x45, 0] [0x40, 6] (by decide)).1 (by decide),
    (np_in_cksum_verify [0x45, 0] [0x40, 6] (by decide)).2 (by decide)⟩

/-- A buffer of 131076 bytes whose words sum to 2^32 - 1 once the field at
offset 0 is filled: it is longer than 131074 bytes and still verifies to 0. -/
theorem np_in_cksum_field_valid_boundary :
    np_in_cksum_sum (with_cksum_field [] (List.replicate (2 * 65536) 255 ++ [1, 0])
        (np_in_cksum (with_cksum_field [] (List.replicate (2 * 65536) 255 ++ [1, 0]) 0))) 0 =
      4294967295 ∧
    np_in_cksum (with_cksum_field [] (List.replicate (2 * 65536) 255 ++ [1, 0])
      (np_in_cksum (with_cksum_field [] (List.replicate (2 * 65536) 255 ++ [1, 0]) 0))) = 0 := by
  have hs : np_in_cksum_sum (List.replicate (2 * 65536) 255 ++ [1, 0]) 0 = 4294901761 := by
    rw [np_in_cksum_sum_replicate]
    simp only [np_in_cksum_sum]
    decide
  have h0 : np_in_cksum (with_cksum_field [] (List.replicate (2 * 65536) 255 ++ [1, 0]) 0) =
      65534 := by
    rw [np_in_cksum_eq, np_in_cksum_sum_field [] _ 0 rfl (by decide), hs]
    decide
  have h1 : np_in_cksum_sum (with_cksum_field [] (List.replicate (2 * 65536) 255 ++ [1, 0])
      (np_in_cksum (with_cksum_field [] (List.replicate (2 * 65536) 255 ++ [1, 0]) 0))) 0 =
      4294967295 := by
    rw [h0, np_in_cksum_sum_field [] _ 65534 rfl (by decide), hs]
    decide
  exact ⟨h1, np_in_cksum_field_valid_filled [] _ rfl (by rw [h1]; decide)⟩

/-- C2, refuted as stated: on the 262148-byte buffer the two folds leave a
carry behind, and np_in_cksum returns 65535 where the RFC 1071 checksum is
65534. -/
theorem np_in_cksum_ne_rfc1071_long_buffer :
    np_in_cksum long_buffer = 65535 ∧ rfc1071 long_buffer = 65534 ∧
      np_in_cksum long_buffer ≠ rfc1071 long_buffer := by
  have h1 : np_in_cksum long_buffer = 65535 := by
    rw [np_in_cksum_eq, long_buffer_sum]; decide
  have h2 : rfc1071 long_buffer = 65534 := by
    rw [rfc1071_eq, long_buffer_sum]; decide
  refine ⟨h1, h2, ?_⟩
  rw [h1, h2]; decide

/-- C2, amended: for every buffer whose 16-bit words sum to less than 2^32,
in particular for every buffer of at most 131074 bytes, np_in_cksum is the
RFC 1071 checksum: the 16-bit complement of the end-around-carry sum of the
host-order words, a final odd byte being the low byte of a zero-padded word.
For a buffer of any odd length the result is that of the buffer with one zero
byte appended. -/
theorem np_in_cksum_eq_rfc1071 (b : List u_char) :
    (np_in_cksum_sum b 0 < 4294967296 → np_in_cksum b = rfc1071 b) ∧
    (b.length ≤ 131074 → np_in_cksum b = rfc1071 b) ∧
    (b.length % 2 = 1 → np_in_cksum b = np_in_cksum (b ++ [0])) := by
  have hsmall : np_in_cksum_sum b 0 < 4294967296 → np_in_cksum b = rfc1071 b := by
    intro hs
    rw [np_in_cksum_eq, rfc1071_eq, cksum_of_sum_small _ hs]
  refine ⟨hsmall, ?_, ?_⟩
  · intro hlen
    have hb := np_in_cksum_sum_le b
    have : (b.length + 1) / 2 ≤ 65537 := by omega
    have := Nat.mul_le_mul_left 65535 this
    exact hsmall (by omega)
  · intro hodd
    have key : ∀ (l : List u_char) (acc : Nat), l.length % 2 = 1 →
        np_in_cksum_sum (l ++ [0]) acc = np_in_cksum_sum l acc := by
      intro l
      induction l using List.reverseRecOn with
      | nil => intro acc h; simp at h
      | append_singleton l0 x _ =>
        intro acc h
        have h0 : l0.length % 2 = 0 := by simp at h; omega
        rw [List.append_assoc, np_in_cksum_sum_append l0 _ acc h0,
          np_in_cksum_sum_append l0 _ acc h0]
        simp [np_in_cksum_sum]
    rw [np_in_cksum_eq, np_in_cksum_eq, key b 0 hodd]

theorem np_in_cksum_eq_rfc1071_witness :
    ([0xff, 0xff, 0xff, 0xff, 1] : List u_char).length ≤ 131074 ∧
      ([0xff, 0xff, 0xff, 0xff, 1] : List u_char).length % 2 = 1 ∧
      np_in_cksum [0xff, 0xff, 0xff, 0xff, 1] = rfc1071 [0xff, 0xff, 0xff, 0xff, 1] ∧
      np_in_cksum [0xff, 0xff, 0xff, 0xff, 1] = np_in_cksum ([0xff, 0xff, 0xff, 0xff, 1] ++ [0]) :=
  ⟨by decide, by decide,
    (np_in_cksum_eq_rfc1071 [0xff, 0xff, 0xff, 0xff, 1]).2.1 (by decide),
    (np_in_cksum_eq_rfc1071 [0xff, 0xff, 0xff, 0xff, 1]).2.2 (by decide)⟩

/-! ## C6: the bounded wait of get_host_from_queue -/

theorem get_alive_host_str_empty (k : Option (Option String)) (h : k = none ∨ k = some none) :
    (get_alive_host_str k).1 = none ∧
      (get_alive_host_str k).2 ≠ ALIVE_DETECTION_FINISHED := by
  rcases h with h | h <;> subst h <;> simp [get_alive_host_str]

theorem get_host_from_queue_loop_empty (kb : Nat → Option (Option String))
    (gvm_host_from_str : String → Option gvm_host_t)
    (hkb : ∀ i, kb i = none ∨ kb i = some none) :
    ∀ (timeout : Nat) (flag : alive_detection) (sleeps pops : Nat),
      flag ≠ ALIVE_DETECTION_FINISHED →
      ∃ flag2, flag2 ≠ ALIVE_DETECTION_FINISHED ∧
        get_host_from_queue_loop kb gvm_host_from_str timeout none flag sleeps pops =
          (none, flag2, sleeps + timeout, pops + timeout)
  | 0, flag, sleeps, pops, hf => ⟨flag, hf, by simp [get_host_from_queue_loop]⟩
  | timeout + 1, flag, sleeps, pops, hf => by
    obtain ⟨h1, h2⟩ := get_alive_host_str_empty (kb pops) (hkb pops)
    obtain ⟨flag2, hf2, ih⟩ := get_host_from_queue_loop_empty kb gvm_host_from_str hkb timeout
      (get_alive_host_str (kb pops)).2 (sleeps + 1) (pops + 1) h2
    refine ⟨flag2, hf2, ?_⟩
    rw [get_host_from_queue_loop]
    simp only [Option.isNone_none, Bool.true_and, bne_iff_ne, ne_eq, hf, not_false_eq_true,
      if_true, h1, Option.none_bind]
    rw [ih]
    congr 3 <;> omega

/-- C6: with a positive timeout t and a queue that yields no item at any poll,
get_host_from_queue returns no host after exactly t sleeps of one second and
t + 1 polls. -/
theorem get_host_from_queue_empty (t : Int) (kb : Nat → Option (Option String))
    (gvm_host_from_str : String → Option gvm_host_t) (ht : 0 < t)
    (hkb : ∀ i, kb i = none ∨ kb i = some none) :
    (get_host_from_queue t kb gvm_host_from_str).host = none ∧
      ((get_host_from_queue t kb gvm_host_from_str).sleeps : Int) = t ∧
      ((get_host_from_queue t kb gvm_host_from_str).pops : Int) = t + 1 := by
  obtain ⟨h1, h2⟩ := get_alive_host_str_empty (kb 0) (hkb 0)
  obtain ⟨flag2, hf2, hl⟩ := get_host_from_queue_loop_empty kb gvm_host_from_str hkb t.toNat
    (get_alive_host_str (kb 0)).2 0 1 h2
  unfold get_host_from_queue
  simp only [if_neg (not_le.mpr ht), h1, Option.none_bind, hl, if_neg hf2]
  refine ⟨trivial, ?_, ?_⟩ <;> omega

theorem get_host_from_queue_empty_witness :
    (0 : Int) < 2 ∧ (∀ i : Nat, (fun _ => some none : Nat → Option (Option String)) i = none ∨
      (fun _ => some none : Nat → Option (Option String)) i = some none) ∧
    (get_host_from_queue 2 (fun _ => some none) (fun _ => none)).host = none ∧
      ((get_host_from_queue 2 (fun _ => some none) (fun _ => none)).sleeps : Int) = 2 ∧
      ((get_host_from_queue 2 (fun _ => some none) (fun _ => none)).pops : Int) = 2 + 1 :=
  ⟨by decide, fun _ => Or.inr rfl,
    get_host_from_queue_empty 2 (fun _ => some none) (fun _ => none) (by decide)
      (fun _ => Or.inr rfl)⟩

/-! ## C7: islocalhost -/

theorem islocalhost_loop_addressed (a : in_addr) : ∀ (l : List ifaddrs) (ret : Int),
    (∀ ifa ∈ l, ifa.ifa_addr ≠ none) →
    islocalhost_loop a l ret = some (if a ∈ ipv4_addrs l then 1 else ret)
  | [], ret, _ => by simp [islocalhost_loop, ipv4_addrs]
  | ifa :: rest, ret, h => by
    have hrest : ∀ i ∈ rest, i.ifa_addr ≠ none := fun i hi => h i (List.mem_cons_of_mem _ hi)
    have hifa := h ifa (List.mem_cons_self _ _)
    cases hsa : ifa.ifa_addr with
    | none => exact absurd hsa hifa
    | some sa =>
      simp only [islocalhost_loop, ipv4_addrs, hsa]
      by_cases hf : sa.sa_family = AF_INET
      · by_cases he : a = sa.sin_addr
        · simp only [hf, if_true, he, islocalhost_loop_addressed _ rest 1 hrest,
            List.mem_cons, true_or]
          split <;> rfl
        · simp only [hf, if_true, he, if_false, islocalhost_loop_addressed _ rest ret hrest,
            List.mem_cons, false_or]
      · simp only [hf, if_false, islocalhost_loop_addressed _ rest ret hrest]

/-- What islocalhost does return: 0.0.0.0 and 127.0.0.0/8 are local whatever the
interfaces; -1 is returned only when enumeration fails; and when every
enumerated entry has an address the result is 1 or 0 according to whether the
address is the IPv4 address of an entry. -/
theorem islocalhost_addressed (getifaddrs : Option (List ifaddrs)) (a : in_addr) :
    ((a.val = 0 ∨ a.val % 256 = 127) → islocalhost getifaddrs (some a) = some 1) ∧
    (islocalhost getifaddrs (some a) = some (-1) → getifaddrs = none) ∧
    (∀ l, getifaddrs = some l → (∀ ifa ∈ l, ifa.ifa_addr ≠ none) →
      ¬ (a.val = 0 ∨ a.val % 256 = 127) →
      islocalhost getifaddrs (some a) = some (if a ∈ ipv4_addrs l then 1 else 0)) := by
  have hmask : a.val &&& htonl 0xFF000000 = a.val % 256 := by
    have := Nat.and_pow_two_sub_one_eq_mod a.val 8
    simpa [htonl] using this
  have h127 : htonl 0x7F000000 = 127 := by decide
  refine ⟨?_, ?_, ?_⟩
  · rintro (h | h)
    · simp [islocalhost, h]
    · simp only [islocalhost, hmask, h127, h, if_true]
      split <;> rfl
  · intro h
    simp only [islocalhost, hmask, h127] at h
    split at h
    · simp at h
    · split at h
      · simp at h
      · cases hg : getifaddrs with
        | none => rfl
        | some l =>
          exfalso
          simp only [hg] at h
          have key : ∀ (l : List ifaddrs) (ret : Int), (ret = 0 ∨ ret = 1) →
              islocalhost_loop a l ret ≠ some (-1) := by
            intro l
            induction l with
            | nil => intro ret hr; simp only [islocalhost_loop]; rcases hr with h | h <;> simp [h]
            | cons ifa rest ih =>
              intro ret hr
              simp only [islocalhost_loop]
              split
              · simp
              · split
                · split
                  · exact ih 1 (Or.inr rfl)
                  · exact ih ret hr
                · exact ih ret hr
          exact key l 0 (Or.inl rfl) h
  · intro l hg hl hn
    have h0 : ¬ a.val = 0 := fun h => hn (Or.inl h)
    have h1 : ¬ a.val % 256 = 127 := fun h => hn (Or.inr h)
    simp only [islocalhost, hmask, h127, h0, h1, if_false, hg]
    exact islocalhost_loop_addressed a l 0 hl

/-- C7 at the failing input: the address 10.0.0.5 with the interfaces lo
(127.0.0.1) and one entry whose ifa_addr is null. Enumeration succeeds and the
address equals none of the interface addresses, yet islocalhost does not return
0: it dereferences the null ifa_addr. The loop of set_src_addr skips such an
entry. -/
theorem islocalhost_null_ifa_addr :
    islocalhost (some [⟨some ⟨AF_INET, 0x0100007F⟩⟩, ⟨none⟩]) (some 0x0500000A) = none ∧
      set_src_addr 0 (some [⟨some ⟨AF_INET, 0x0100007F⟩⟩, ⟨none⟩]) = 0x0100007F := by
  decide

/-! ## C9: set_src_addr -/

theorem set_src_addr_loop_last : ∀ (l : List ifaddrs) (src : in_addr),
    set_src_addr_loop l src = (ipv4_addrs l).getLast?.getD src
  | [], src => by simp [set_src_addr_loop, ipv4_addrs]
  | ifa :: rest, src => by
    cases hsa : ifa.ifa_addr with
    | none => simp only [set_src_addr_loop, ipv4_addrs, hsa, set_src_addr_loop_last rest]
    | some sa =>
      simp only [set_src_addr_loop, ipv4_addrs, hsa]
      by_cases hf : sa.sa_family = AF_INET
      · simp only [hf, if_true, set_src_addr_loop_last rest, List.getLast?_cons]
        simp
      · simp only [hf, if_false, set_src_addr_loop_last rest]

/-- C9, refuted as stated: with no preferred source address and the interfaces
lo (127.0.0.1) and eth0 (192.168.1.10), in this order, set_src_addr yields
192.168.1.10, which is not the first IPv4 address of the enumeration. -/
theorem set_src_addr_not_first :
    set_src_addr 0 (some [⟨some ⟨AF_INET, 0x0100007F⟩⟩, ⟨some ⟨AF_INET, 0x0A01A8C0⟩⟩]) =
        0x0A01A8C0 ∧
      (ipv4_addrs [⟨some ⟨AF_INET, 0x0100007F⟩⟩, ⟨some ⟨AF_INET, 0x0A01A8C0⟩⟩]).head? =
        some 0x0100007F ∧
      some (set_src_addr 0
        (some [⟨some ⟨AF_INET, 0x0100007F⟩⟩, ⟨some ⟨AF_INET, 0x0A01A8C0⟩⟩])) ≠
        (ipv4_addrs [⟨some ⟨AF_INET, 0x0100007F⟩⟩, ⟨some ⟨AF_INET, 0x0A01A8C0⟩⟩]).head? := by
  decide

/-- C9, amended: when gvm_source_addr yields the zero address and interface
enumeration succeeds with at least one IPv4 address, set_src_addr sets the
source address to the last IPv4 address in the enumeration order. -/
theorem set_src_addr_last (gvm_source_addr : in_addr) (l : List ifaddrs)
    (hzero : gvm_source_addr.val = 0) (hne : ipv4_addrs l ≠ []) :
    some (set_src_addr gvm_source_addr (some l)) = (ipv4_addrs l).getLast? := by
  unfold set_src_addr
  simp only [ne_eq, hzero, not_true_eq_false, if_false, set_src_addr_loop_last]
  cases h : (ipv4_addrs l).getLast? with
  | none => exact absurd (List.getLast?_eq_none_iff.mp h) hne
  | some x => rfl

theorem set_src_addr_last_witness :
    (0 : in_addr).val = 0 ∧
      ipv4_addrs [⟨some ⟨AF_INET, 0x0100007F⟩⟩, ⟨none⟩, ⟨some ⟨AF_INET, 0x0A01A8C0⟩⟩] ≠ [] ∧
      some (set_src_addr 0
        (some [⟨some ⟨AF_INET, 0x0100007F⟩⟩, ⟨none⟩, ⟨some ⟨AF_INET, 0x0A01A8C0⟩⟩])) =
        (ipv4_addrs [⟨some ⟨AF_INET, 0x0100007F⟩⟩, ⟨none⟩, ⟨some ⟨AF_INET, 0x0A01A8C0⟩⟩]).getLast? :=
  ⟨rfl, by decide, set_src_addr_last 0 _ rfl (by decide)⟩

/-! ## C10 and C8: the SYN probes of tcp_syns -/

theorem ntohs_mem16_htons (x : Nat) :
    256 * (byte_of (htons x) 0).val + (byte_of (htons x) 1).val = x % 65536 := by
  simp only [byte_of, htons, pow_zero, pow_one, Nat.div_one]
  obtain ⟨q, h, l, hx, hh, hl⟩ : ∃ q h l, x = 65536 * q + 256 * h + l ∧ h < 256 ∧ l < 256 :=
    ⟨x / 65536, x / 256 % 256, x % 256, by omega, by omega, by omega⟩
  have e1 : x % 256 = l := by omega
  have e2 : x / 256 % 256 = h := by omega
  have e3 : x % 65536 = 256 * h + l := by omega
  rw [e1, e2, e3]
  clear e1 e2 e3 hx
  have e4 : (l * 256 + h) / 256 = l := by omega
  have e5 : (l * 256 + h) % 256 = h := by omega
  rw [e4, e5]
  omega

theorem tcp_syn_packet_ports (src inaddr : in_addr) (ports_i rand_id rand_seq : Nat) :
    th_sport_of (tcp_syn_packet src inaddr ports_i rand_id rand_seq) = 9910 ∧
    th_dport_of (tcp_syn_packet src inaddr ports_i rand_id rand_seq) = ports_i % 65536 := by
  have h1 := ntohs_mem16_htons FILTER_PORT
  have h2 := ntohs_mem16_htons ports_i
  constructor
  · simpa [tcp_syn_packet, ip.mem, tcphdr.mem, mem16, mem32, th_sport_of] using h1
  · simpa [tcp_syn_packet, ip.mem, tcphdr.mem, mem16, mem32, th_dport_of] using h2

theorem tcp_syn_packet_length (src inaddr : in_addr) (ports_i rand_id rand_seq : Nat) :
    (tcp_syn_packet src inaddr ports_i rand_id rand_seq).length = 40 := by
  simp [tcp_syn_packet, ip.mem, tcphdr.mem, mem16, mem32]

theorem tcp_syn_packet_pseudo (src inaddr : in_addr) (ports_i rand_id rand_seq : Nat) :
    pseudo_header_of (tcp_syn_packet src inaddr ports_i rand_id rand_seq) =
      tcp_pseudo_header src inaddr := by
  simp [pseudo_header_of, tcp_pseudo_header, tcp_syn_packet, ip.mem, tcphdr.mem, mem16, mem32]

theorem tcp_syn_packet_ip (src inaddr : in_addr) (ports_i rand_id rand_seq : Nat) :
    np_in_cksum ((tcp_syn_packet src inaddr ports_i rand_id rand_seq).take 20) = 0 := by
  have h := np_in_cksum_field_valid_of_length
    ([byte_of (5 % 16 + 16 * (4 % 16)) 0, byte_of 0 0] ++ mem16 (htons 40) ++
    mem16 rand_id ++ mem16 (htons 0) ++ [byte_of 0x40 0, byte_of IPPROTO_TCP 0])
    (mem32 src.val ++ mem32 inaddr.val) (by simp [mem16]) (by simp [mem16, mem32])
  exact h

theorem tcp_syn_packet_drop (src inaddr : in_addr) (ports_i rand_id rand_seq : Nat) :
    tcp_pseudo_header src inaddr ++ (tcp_syn_packet src inaddr ports_i rand_id rand_seq).drop 20 =
      with_cksum_field
        (tcp_pseudo_header src inaddr ++ mem16 (htons FILTER_PORT) ++ mem16 (htons ports_i) ++
          mem32 rand_seq ++ mem32 0 ++ [byte_of (0 % 16 + 16 * (5 % 16)) 0, byte_of TH_SYN 0] ++
          mem16 2048)
        (mem16 0)
        (np_in_cksum (with_cksum_field
          (tcp_pseudo_header src inaddr ++ mem16 (htons FILTER_PORT) ++ mem16 (htons ports_i) ++
            mem32 rand_seq ++ mem32 0 ++ [byte_of (0 % 16 + 16 * (5 % 16)) 0, byte_of TH_SYN 0] ++
            mem16 2048)
          (mem16 0) 0)) := by
  have e0 : byte_of 0 0 = 0 := by decide
  have e1 : byte_of 0 1 = 0 := by decide
  have e6 : byte_of 6 0 = 6 := by decide
  simp [tcp_syn_packet, ip.mem, tcphdr.mem, pseudohdr.mem, mem16, mem32, with_cksum_field,
    tcp_pseudo_header, e0, e1, e6]

theorem tcp_syn_packet_tcp (src inaddr : in_addr) (ports_i rand_id rand_seq : Nat) :
    np_in_cksum (tcp_pseudo_header src inaddr ++
      (tcp_syn_packet src inaddr ports_i rand_id rand_seq).drop 20) = 0 := by
  rw [tcp_syn_packet_drop]
  exact np_in_cksum_field_valid_of_length _ _ (by simp [mem16, mem32, tcp_pseudo_header])
    (by simp [mem16, mem32, tcp_pseudo_header])

theorem tcp_syn_packet_th_sum (src inaddr : in_addr) (ports_i rand_id rand_seq : Nat) :
    ((tcp_syn_packet src inaddr ports_i rand_id rand_seq).drop 36).take 2 =
      mem16 (np_in_cksum (tcp_pseudo_header src inaddr ++
        ((tcp_syn_packet src inaddr ports_i rand_id rand_seq).drop 20).take 16 ++ [0, 0] ++
        (tcp_syn_packet src inaddr ports_i rand_id rand_seq).drop 38)) := by
  have e0 : byte_of 0 0 = 0 := by decide
  have e1 : byte_of 0 1 = 0 := by decide
  have e6 : byte_of 6 0 = 6 := by decide
  simp [tcp_syn_packet, ip.mem, tcphdr.mem, pseudohdr.mem, mem16, mem32,
    tcp_pseudo_header, e0, e1, e6]

theorem tcp_syns_loop_mem (env : Env) (src inaddr : in_addr) : ∀ (l : List Nat) (n : Nat),
    ∀ p ∈ (tcp_syns_loop env src inaddr l n).1,
      ∃ ports_i rand_id rand_seq, p = tcp_syn_packet src inaddr ports_i rand_id rand_seq
  | [], n, p, hp => by simp [tcp_syns_loop] at hp
  | ports_i :: rest, n, p, hp => by
    simp only [tcp_syns_loop, List.mem_cons] at hp
    rcases hp with hp | hp
    · exact ⟨_, _, _, hp⟩
    · exact tcp_syns_loop_mem env src inaddr rest (n + 2) p hp

theorem tcp_syns_loop_dports (env : Env) (src inaddr : in_addr) : ∀ (l : List Nat) (n : Nat),
    (tcp_syns_loop env src inaddr l n).1.map th_dport_of = l.map (fun x => x % 65536) ∧
      (tcp_syns_loop env src inaddr l n).2 = n + 2 * l.length
  | [], n => by simp [tcp_syns_loop]
  | ports_i :: rest, n => by
    obtain ⟨h1, h2⟩ := tcp_syns_loop_dports env src inaddr rest (n + 2)
    simp only [tcp_syns_loop, List.map_cons, h1, h2, (tcp_syn_packet_ports _ _ _ _ _).2,
      List.length_cons, true_and]
    omega

theorem tcp_syns_cases (env : Env) (n : Nat) (key : String) (value : gvm_host_t)
    (r : List Packet × Nat) (h : tcp_syns env n key value = some r) :
    r.1 = [] ∨ ∃ src, r = tcp_syns_loop env src value.addr6.s6_addr32_3 ports n := by
  unfold tcp_syns at h
  simp only at h
  split at h
  · left; cases h; rfl
  · split at h
    · cases h
    · right; cases h; exact ⟨_, rfl⟩

/-- C10: for every source address, destination address, port, IP
identification and sequence number the SYN datagram built in the loop of
tcp_syns has 40 bytes, np_in_cksum over its 20-byte IPv4 header is 0,
np_in_cksum over the 12-byte pseudo-header followed by its 20-byte TCP header
is 0, and its th_sum field holds np_in_cksum of that 32-byte buffer with the
field zeroed; and every datagram a call of tcp_syns sends passes both
validations, the pseudo-header being formed from the addresses it carries. -/
theorem tcp_syn_checksums_valid :
    (∀ (src inaddr : in_addr) (ports_i rand_id rand_seq : Nat),
      (tcp_syn_packet src inaddr ports_i rand_id rand_seq).length = 40 ∧
      np_in_cksum ((tcp_syn_packet src inaddr ports_i rand_id rand_seq).take 20) = 0 ∧
      np_in_cksum (tcp_pseudo_header src inaddr ++
        (tcp_syn_packet src inaddr ports_i rand_id rand_seq).drop 20) = 0 ∧
      ((tcp_syn_packet src inaddr ports_i rand_id rand_seq).drop 36).take 2 =
        mem16 (np_in_cksum (tcp_pseudo_header src inaddr ++
          ((tcp_syn_packet src inaddr ports_i rand_id rand_seq).drop 20).take 16 ++ [0, 0] ++
          (tcp_syn_packet src inaddr ports_i rand_id rand_seq).drop 38)) ∧
      pseudo_header_of (tcp_syn_packet src inaddr ports_i rand_id rand_seq) =
        tcp_pseudo_header src inaddr) ∧
    (∀ (env : Env) (n : Nat) (key : String) (value : gvm_host_t) (r : List Packet × Nat),
      tcp_syns env n key value = some r →
      ∀ p ∈ r.1, np_in_cksum (p.take 20) = 0 ∧ np_in_cksum (pseudo_header_of p ++ p.drop 20) = 0) := by
  refine ⟨fun src inaddr ports_i rand_id rand_seq =>
    ⟨tcp_syn_packet_length _ _ _ _ _, tcp_syn_packet_ip _ _ _ _ _, tcp_syn_packet_tcp _ _ _ _ _,
      tcp_syn_packet_th_sum _ _ _ _ _, tcp_syn_packet_pseudo _ _ _ _ _⟩, ?_⟩
  intro env n key value r h p hp
  rcases tcp_syns_cases env n key value r h with h0 | ⟨src, hr⟩
  · rw [h0] at hp; simp at hp
  · rw [hr] at hp
    obtain ⟨ports_i, rand_id, rand_seq, rfl⟩ := tcp_syns_loop_mem env src _ ports n p hp
    rw [tcp_syn_packet_pseudo]
    exact ⟨tcp_syn_packet_ip _ _ _ _ _, tcp_syn_packet_tcp _ _ _ _ _⟩

theorem tcp_syn_checksums_valid_witness :
    tcp_syns env_two_ifs 0 "127.0.0.1" host_127_0_0_1 =
        some (tcp_syns_loop env_two_ifs 0x0100007F 0x0100007F ports 0) ∧
      ∀ p ∈ (tcp_syns_loop env_two_ifs 0x0100007F 0x0100007F ports 0).1,
        np_in_cksum (p.take 20) = 0 ∧ np_in_cksum (pseudo_header_of p ++ p.drop 20) = 0 :=
  ⟨rfl, tcp_syn_checksums_valid.2 env_two_ifs 0 "127.0.0.1" host_127_0_0_1 _ rfl⟩

/-- The port ladder, provided islocalhost returns: for a v4-mapped host a call
of tcp_syns sends exactly 28 datagrams, whose destination ports are the ladder
in order and whose source port is 9910. -/
theorem tcp_syns_ladder (env : Env) (n : Nat) (key : String) (value : gvm_host_t)
    (hv4 : IN6_IS_ADDR_V4MAPPED value.addr6 = true)
    (hloc : islocalhost env.getifaddrs (some value.addr6.s6_addr32_3) ≠ none) :
    ∃ sent, tcp_syns env n key value = some (sent, n + 56) ∧ sent.length = 28 ∧
      sent.map th_dport_of =
        [139, 135, 445, 80, 22, 515, 23, 21, 6000, 1025, 25, 111, 1028, 9100, 1029, 79, 497,
          548, 5000, 1917, 53, 161, 9001, 65535, 443, 113, 993, 8080] ∧
      ∀ p ∈ sent, th_sport_of p = 9910 := by
  cases hl : islocalhost env.getifaddrs (some value.addr6.s6_addr32_3) with
  | none => exact absurd hl hloc
  | some ret =>
    have hd := tcp_syns_loop_dports env
      (if ret > 0 then value.addr6.s6_addr32_3
        else set_src_addr env.gvm_source_addr env.getifaddrs) value.addr6.s6_addr32_3 ports n
    refine ⟨(tcp_syns_loop env (if ret > 0 then value.addr6.s6_addr32_3
        else set_src_addr env.gvm_source_addr env.getifaddrs)
        value.addr6.s6_addr32_3 ports n).1, ?_, ?_, ?_, ?_⟩
    · unfold tcp_syns
      simp only [hv4, bne_self_eq_false, Bool.false_eq_true, if_false, hl]
      exact congrArg some (Prod.ext rfl hd.2)
    · have := congrArg List.length hd.1
      simpa [ports] using this
    · rw [hd.1]; decide
    · intro p hp
      obtain ⟨ports_i, rand_id, rand_seq, rfl⟩ := tcp_syns_loop_mem env _ _ ports n p hp
      exact (tcp_syn_packet_ports _ _ _ _ _).1

theorem tcp_syns_ladder_witness :
    IN6_IS_ADDR_V4MAPPED host_10_0_0_5.addr6 = true ∧
      islocalhost env_two_ifs.getifaddrs (some host_10_0_0_5.addr6.s6_addr32_3) ≠ none ∧
      ∃ sent, tcp_syns env_two_ifs 0 "10.0.0.5" host_10_0_0_5 = some (sent, 0 + 56) ∧
        sent.length = 28 ∧
        sent.map th_dport_of =
          [139, 135, 445, 80, 22, 515, 23, 21, 6000, 1025, 25, 111, 1028, 9100, 1029, 79, 497,
            548, 5000, 1917, 53, 161, 9001, 65535, 443, 113, 993, 8080] ∧
        ∀ p ∈ sent, th_sport_of p = 9910 :=
  ⟨by decide, by decide,
    tcp_syns_ladder env_two_ifs 0 "10.0.0.5" host_10_0_0_5 (by decide) (by decide)⟩

/-- C8 at the failing input: the v4-mapped host 10.0.0.5 on a machine one of
whose interface entries has no address. The call of tcp_syns sends no datagram
at all: it faults in islocalhost before the loop over the ports. -/
theorem tcp_syns_null_ifa_addr :
    IN6_IS_ADDR_V4MAPPED host_10_0_0_5.addr6 = true ∧
      tcp_syns env_null_ifa_addr 0 "10.0.0.5" host_10_0_0_5 = none := by
  decide

/-! ## C3, C5 and C4: the run -/

theorem got_packet_targethosts (g : Globals) (packet : Packet) :
    (got_packet g packet).targethosts = g.targethosts := by
  unfold got_packet
  simp only
  split <;> rfl

theorem sniffer_thread_targethosts (captured : List Packet) : ∀ (g : Globals),
    (sniffer_thread g captured).targethosts = g.targethosts := by
  induction captured with
  | nil => intro g; rfl
  | cons p rest ih =>
    intro g
    simp only [sniffer_thread, List.foldl_cons] at ih ⊢
    rw [ih, got_packet_targethosts]

theorem got_packet_pushed_once (g : Globals) (packet : Packet) (h : pushed_once g) :
    pushed_once (got_packet g packet) := by
  obtain ⟨h1, h2, h3⟩ := h
  unfold got_packet g_hash_table_add
  simp only
  split
  · rename_i hin
    split
    · rename_i hc; simp at hc
    · exact ⟨h1, h2, h3⟩
  · rename_i hin
    split
    · refine ⟨?_, ?_, ?_⟩
      · simp only
        rw [List.nodup_append]
        refine ⟨h1, List.nodup_singleton _, ?_⟩
        intro s hs hs2
        rw [List.mem_singleton] at hs2
        subst hs2
        exact hin (h2 _ hs)
      · intro s hs
        simp only [List.mem_append, List.mem_singleton] at hs ⊢
        rcases hs with hs | hs
        · exact Or.inl (h2 s hs)
        · exact Or.inr hs
      · intro s hs
        simp only [List.mem_append, List.mem_singleton] at hs
        rcases hs with hs | hs
        · exact h3 s hs
        · exact ⟨_, hs⟩
    · refine ⟨h1, ?_, h3⟩
      intro s hs
      simp only [List.mem_append]
      exact Or.inl (h2 s hs)

theorem sniffer_thread_pushed_once (captured : List Packet) : ∀ (g : Globals),
    pushed_once g → pushed_once (sniffer_thread g captured) := by
  induction captured with
  | nil => intro g h; exact h
  | cons p rest ih =>
    intro g h
    simp only [sniffer_thread, List.foldl_cons] at ih ⊢
    exact ih _ (got_packet_pushed_once g p h)

theorem exclude_alivehosts_pushed_once (g : Globals) (h : pushed_once g) :
    pushed_once (exclude_alivehosts g) := h

theorem initial_globals_pushed_once (targethosts : List (String × gvm_host_t)) :
    pushed_once (initial_globals targethosts) := by
  simp [pushed_once, initial_globals]

theorem exclude_foldl (alive : List String) : ∀ (t : List (String × gvm_host_t)),
    alive.foldl (fun t key => exclude key t) t = t.filter (fun kv => decide (kv.1 ∉ alive)) := by
  induction alive with
  | nil => intro t; simp
  | cons k rest ih =>
    intro t
    rw [List.foldl_cons, ih]
    simp only [exclude, g_hash_table_remove, List.filter_filter]
    congr 1
    funext kv
    by_cases h1 : kv.1 = k <;> by_cases h2 : kv.1 ∈ rest <;> simp [h1, h2]

theorem g_hash_table_foreach_keys
    (func : Nat → String → gvm_host_t → Option (List Packet × Nat)) :
    ∀ (t : List (String × gvm_host_t)) (n : Nat) (r : List (String × List Packet) × Nat),
      g_hash_table_foreach func t n = some r → r.1.map Prod.fst = t.map Prod.fst
  | [], n, r, h => by
    simp only [g_hash_table_foreach, Option.some.injEq] at h
    subst h; rfl
  | kv :: rest, n, r, h => by
    simp only [g_hash_table_foreach] at h
    split at h
    · cases h
    · rename_i sent hs
      split at h
      · cases h
      · rename_i calls hc
        cases h
        simp only [List.map_cons]
        rw [g_hash_table_foreach_keys func rest sent.2 calls hc]

theorem ping_some (env : Env) (g : Globals) (icmp_captured tcp_captured : List Packet)
    (r : ping_trace) (h : ping env g icmp_captured tcp_captured = some r) :
    r.globals = exclude_alivehosts (sniffer_thread
        (exclude_alivehosts (sniffer_thread g icmp_captured)) tcp_captured) ∧
      r.icmp_calls.map Prod.fst = g.targethosts.map Prod.fst ∧
      r.tcp_calls.map Prod.fst =
        (exclude_alivehosts (sniffer_thread g icmp_captured)).targethosts.map Prod.fst := by
  unfold ping at h
  split at h
  · cases h
  · rename_i icmp_calls h1
    simp only at h
    split at h
    · cases h
    · rename_i tcp_calls h2
      cases h
      exact ⟨rfl, g_hash_table_foreach_keys _ _ _ _ h1, g_hash_table_foreach_keys _ _ _ _ h2⟩

theorem run_pushed_once (targethosts : List (String × gvm_host_t))
    (icmp_captured tcp_captured : List Packet) :
    pushed_once (exclude_alivehosts (sniffer_thread
      (exclude_alivehosts (sniffer_thread (initial_globals targethosts) icmp_captured))
      tcp_captured)) :=
  exclude_alivehosts_pushed_once _ (sniffer_thread_pushed_once _ _
    (exclude_alivehosts_pushed_once _ (sniffer_thread_pushed_once _ _
      (initial_globals_pushed_once targethosts))))

theorem inet_ntoa_ne_finish (a : in_addr) : inet_ntoa a ≠ "finish" := by
  intro h
  have h1 : '.' ∈ (inet_ntoa a).data := by
    simp [inet_ntoa, String.data_append]
  rw [h] at h1
  revert h1
  decide

theorem start_alive_detection_some (env : Env) (hosts : List gvm_host_t)
    (icmp_captured tcp_captured : List Packet) (q : List String)
    (h : start_alive_detection env hosts icmp_captured tcp_captured = some q) :
    ∃ pushed, q = pushed ++ ["finish"] ∧ pushed.Nodup ∧ "finish" ∉ pushed ∧
      pushed = (sniffer_thread (exclude_alivehosts (sniffer_thread
        (initial_globals (hosts.foldl (fun t host => g_hash_table_insert t host.value_str host) []))
        icmp_captured)) tcp_captured).main_kb := by
  unfold start_alive_detection at h
  simp only at h
  split at h
  · cases h
  · rename_i r hr
    cases h
    obtain ⟨hg, _, _⟩ := ping_some env _ _ _ r hr
    obtain ⟨h1, _, h3⟩ := run_pushed_once
      (hosts.foldl (fun t host => g_hash_table_insert t host.value_str host) [])
      icmp_captured tcp_captured
    refine ⟨r.globals.main_kb, rfl, ?_, ?_, ?_⟩
    · rw [hg]; exact h1
    · intro hf
      rw [hg] at hf
      obtain ⟨a, ha⟩ := h3 _ hf
      exact inet_ntoa_ne_finish a ha.symm
    · rw [hg]; rfl

/-- C3: starting from an empty seen-alive set and an empty queue, whatever the
target set and the frames got_packet processes in the ICMP phase and, after
the exclusion step, in the TCP phase, no string occurs more than once among
those pushed; and no string occurs more than once in what a completed run of
start_alive_detection pushed. -/
theorem host_pushed_at_most_once :
    (∀ (targethosts : List (String × gvm_host_t)) (icmp_captured tcp_captured : List Packet)
      (s : String),
      (sniffer_thread (exclude_alivehosts (sniffer_thread (initial_globals targethosts)
        icmp_captured)) tcp_captured).main_kb.count s ≤ 1) ∧
    (∀ (env : Env) (hosts : List gvm_host_t) (icmp_captured tcp_captured : List Packet)
      (q : List String) (s : String),
      start_alive_detection env hosts icmp_captured tcp_captured = some q → q.count s ≤ 1) := by
  constructor
  · intro targethosts icmp_captured tcp_captured s
    exact List.nodup_iff_count_le_one.mp
      (run_pushed_once targethosts icmp_captured tcp_captured).1 s
  · intro env hosts icmp_captured tcp_captured q s h
    obtain ⟨pushed, hq, hn, hf, _⟩ := start_alive_detection_some env hosts _ _ q h
    subst hq
    refine List.nodup_iff_count_le_one.mp ?_ s
    rw [List.nodup_append]
    refine ⟨hn, List.nodup_singleton _, ?_⟩
    intro x hx hx2
    rw [List.mem_singleton] at hx2
    subst hx2
    exact hf hx

/-- C5: the exclusion step after the ICMP phase leaves exactly the entries of
the target set whose key is not in the seen-alive set, in their order; the TCP
phase of ping runs tcp_syns for exactly the keys left, none of which is in the
seen-alive set; and with no frame captured in a run the target set is
unchanged. -/
theorem exclude_after_icmp :
    (∀ (g : Globals) (icmp_captured : List Packet),
      (exclude_alivehosts (sniffer_thread g icmp_captured)).targethosts =
        g.targethosts.filter
          (fun kv => decide (kv.1 ∉ (sniffer_thread g icmp_captured).alivehosts))) ∧
    (∀ (env : Env) (g : Globals) (icmp_captured tcp_captured : List Packet) (r : ping_trace),
      ping env g icmp_captured tcp_captured = some r →
        r.tcp_calls.map Prod.fst =
          (g.targethosts.filter
            (fun kv => decide (kv.1 ∉ (sniffer_thread g icmp_captured).alivehosts))).map
            Prod.fst ∧
        ∀ call ∈ r.tcp_calls, call.1 ∉ (sniffer_thread g icmp_captured).alivehosts) ∧
    (∀ (targethosts : List (String × gvm_host_t)),
      (exclude_alivehosts (sniffer_thread (initial_globals targethosts) [])).targethosts =
        targethosts) := by
  have key : ∀ (g : Globals) (icmp_captured : List Packet),
      (exclude_alivehosts (sniffer_thread g icmp_captured)).targethosts =
        g.targethosts.filter
          (fun kv => decide (kv.1 ∉ (sniffer_thread g icmp_captured).alivehosts)) := by
    intro g icmp_captured
    simp only [exclude_alivehosts, exclude_foldl, sniffer_thread_targethosts]
  refine ⟨key, ?_, ?_⟩
  · intro env g icmp_captured tcp_captured r h
    obtain ⟨_, _, h3⟩ := ping_some env g _ _ r h
    rw [key] at h3
    refine ⟨h3, ?_⟩
    intro call hc
    have hm : call.1 ∈ r.tcp_calls.map Prod.fst := List.mem_map_of_mem _ hc
    rw [h3, List.mem_map] at hm
    obtain ⟨kv, hkv, he⟩ := hm
    rw [List.mem_filter] at hkv
    rw [← he]
    simpa using hkv.2
  · intro targethosts
    rw [key]
    simp [sniffer_thread, initial_globals]

theorem host_pushed_at_most_once_witness :
    start_alive_detection env_two_ifs [host_10_0_0_5, host_127_0_0_1]
        [frame_from 0x0500000A, frame_from 0x0500000A] [frame_from 0x0500000A] =
        some ["10.0.0.5", "finish"] ∧
      ["10.0.0.5", "finish"].count "10.0.0.5" ≤ 1 :=
  ⟨by decide,
    host_pushed_at_most_once.2 env_two_ifs [host_10_0_0_5, host_127_0_0_1]
      [frame_from 0x0500000A, frame_from 0x0500000A] [frame_from 0x0500000A]
      ["10.0.0.5", "finish"] "10.0.0.5" (by decide)⟩

theorem exclude_after_icmp_witness :
    ∃ r, ping env_two_ifs
        (initial_globals [("10.0.0.5", host_10_0_0_5), ("127.0.0.1", host_127_0_0_1)])
        [frame_from 0x0500000A] [] = some r ∧
      r.tcp_calls.map Prod.fst = ["127.0.0.1"] ∧
      ∀ call ∈ r.tcp_calls, call.1 ∉ (sniffer_thread
        (initial_globals [("10.0.0.5", host_10_0_0_5), ("127.0.0.1", host_127_0_0_1)])
        [frame_from 0x0500000A]).alivehosts := by
  have hs : (ping env_two_ifs
      (initial_globals [("10.0.0.5", host_10_0_0_5), ("127.0.0.1", host_127_0_0_1)])
      [frame_from 0x0500000A] []).isSome = true := by decide
  have h := exclude_after_icmp.2.1 env_two_ifs
    (initial_globals [("10.0.0.5", host_10_0_0_5), ("127.0.0.1", host_127_0_0_1)])
    [frame_from 0x0500000A] [] _ (Option.some_get hs).symm
  refine ⟨_, (Option.some_get hs).symm, ?_, h.2⟩
  rw [h.1]
  decide

/-! ### C4: the sentinel -/

theorem islocalhost_returns (env : Env) (a : in_addr) (h : all_addressed env) :
    islocalhost env.getifaddrs (some a) ≠ none := by
  unfold islocalhost
  simp only
  split
  · simp
  · split
    · simp
    · cases hg : env.getifaddrs with
      | none => simp
      | some l =>
        simp only [islocalhost_loop_addressed a l 0 (h l hg)]
        simp

theorem send_icmps_returns (env : Env) (h : all_addressed env) (n : Nat) (key : String)
    (value : gvm_host_t) : send_icmps env n key value ≠ none := by
  unfold send_icmps
  simp only
  split
  · simp
  · have := islocalhost_returns env value.addr6.s6_addr32_3 h
    split
    · rename_i hn; exact absurd hn this
    · simp

theorem tcp_syns_returns (env : Env) (h : all_addressed env) (n : Nat) (key : String)
    (value : gvm_host_t) : tcp_syns env n key value ≠ none := by
  unfold tcp_syns
  simp only
  split
  · simp
  · have := islocalhost_returns env value.addr6.s6_addr32_3 h
    split
    · rename_i hn; exact absurd hn this
    · simp

theorem g_hash_table_foreach_returns
    (func : Nat → String → gvm_host_t → Option (List Packet × Nat))
    (hf : ∀ n key value, func n key value ≠ none) :
    ∀ (t : List (String × gvm_host_t)) (n : Nat), g_hash_table_foreach func t n ≠ none
  | [], n => by simp [g_hash_table_foreach]
  | kv :: rest, n => by
    simp only [g_hash_table_foreach]
    split
    · rename_i hn; exact absurd hn (hf _ _ _)
    · rename_i sent _
      split
      · rename_i hn; exact absurd hn (g_hash_table_foreach_returns func hf rest sent.2)
      · simp

theorem ping_returns (env : Env) (h : all_addressed env) (g : Globals)
    (icmp_captured tcp_captured : List Packet) :
    ping env g icmp_captured tcp_captured ≠ none := by
  unfold ping
  split
  · rename_i hn
    exact absurd hn (g_hash_table_foreach_returns _ (send_icmps_returns env h) _ _)
  · simp only
    split
    · rename_i hn
      exact absurd hn (g_hash_table_foreach_returns _ (tcp_syns_returns env h) _ _)
    · simp

/-- The sentinel, provided every enumerated interface entry has an address (or
enumeration fails): the run completes, and the strings it pushed contain the
sentinel exactly once, as their last element. -/
theorem start_alive_detection_sentinel (env : Env) (hosts : List gvm_host_t)
    (icmp_captured tcp_captured : List Packet) (h : all_addressed env) :
    ∃ q, start_alive_detection env hosts icmp_captured tcp_captured = some q ∧
      q.count "finish" = 1 ∧ q.getLast? = some "finish" := by
  cases hq : start_alive_detection env hosts icmp_captured tcp_captured with
  | none =>
    exfalso
    unfold start_alive_detection at hq
    simp only at hq
    split at hq
    · rename_i hn; exact ping_returns env h _ _ _ hn
    · cases hq
  | some q =>
    obtain ⟨pushed, hp, _, hf, _⟩ := start_alive_detection_some env hosts _ _ q hq
    subst hp
    refine ⟨_, rfl, ?_, ?_⟩
    · rw [List.count_append, List.count_eq_zero_of_not_mem hf]; rfl
    · simp

theorem start_alive_detection_sentinel_witness :
    all_addressed env_two_ifs ∧
      ∃ q, start_alive_detection env_two_ifs [host_10_0_0_5, host_127_0_0_1]
          [frame_from 0x0500000A] [frame_from 0x0100007F] = some q ∧
        q.count "finish" = 1 ∧ q.getLast? = some "finish" :=
  have h : all_addressed env_two_ifs := by
    intro l hl ifa hifa
    cases hl
    revert ifa
    decide
  ⟨h, start_alive_detection_sentinel env_two_ifs [host_10_0_0_5, host_127_0_0_1]
    [frame_from 0x0500000A] [frame_from 0x0100007F] h⟩

/-- C4 at the failing input: the single target 10.0.0.5, no frame captured, on
a machine one of whose interface entries has no address. The run pushes
nothing, not even the sentinel: send_icmps faults in islocalhost for the first
target, before any push. -/
theorem start_alive_detection_null_ifa_addr :
    start_alive_detection env_null_ifa_addr [host_10_0_0_5] [] [] = none ∧
      send_icmps env_null_ifa_addr 0 "10.0.0.5" host_10_0_0_5 = none := by
  decide

/-! ## C11: the ICMP probe of send_icmps -/

theorem send_icmps_cases (env : Env) (n : Nat) (key : String) (value : gvm_host_t)
    (r : List Packet × Nat) (h : send_icmps env n key value = some r) :
    r.1 = [] ∨ ∃ src, r.1 =
      [icmp_echo_packet src value.addr6.s6_addr32_3 (env.rand n) (env.rand (n + 1))] := by
  unfold send_icmps at h
  simp only at h
  split at h
  · left; cases h; rfl
  · split at h
    · cases h
    · right; cases h; exact ⟨_, rfl⟩

theorem np_in_cksum_zero_tail (l : List u_char) (k : Nat) (hl : l.length % 2 = 0) :
    np_in_cksum (l ++ List.replicate (2 * k) 0) = np_in_cksum l := by
  rw [np_in_cksum_eq, np_in_cksum_eq, np_in_cksum_sum_append l _ 0 hl]
  have h := np_in_cksum_sum_replicate 0 [] k (np_in_cksum_sum l 0)
  rw [List.append_nil] at h
  rw [h]
  simp [np_in_cksum_sum]

theorem icmp_echo_packet_length (src inaddr : in_addr) (rand_ip_id rand_icmp_id : Nat) :
    (icmp_echo_packet src inaddr rand_ip_id rand_icmp_id).length = 40 := by
  simp [icmp_echo_packet, ip.mem, icmp.mem, mem16, mem32]

theorem icmp_echo_packet_ip_len (src inaddr : in_addr) (rand_ip_id rand_icmp_id : Nat) :
    ip_len_of (icmp_echo_packet src inaddr rand_ip_id rand_icmp_id) = 40 := by
  have h := ntohs_mem16_htons 40
  simpa [icmp_echo_packet, ip.mem, icmp.mem, mem16, mem32, ip_len_of] using h
theorem icmp_echo_packet_header (src inaddr : in_addr) (rand_ip_id rand_icmp_id : Nat) :
    (icmp_echo_packet src inaddr rand_ip_id rand_icmp_id).take 2 = [0x45, 0] ∧
    ((icmp_echo_packet src inaddr rand_ip_id rand_icmp_id).drop 8).take 2 = [64, 1] ∧
    ((icmp_echo_packet src inaddr rand_ip_id rand_icmp_id).drop 12).take 8 =
      mem32 src.val ++ mem32 inaddr.val ∧
    ((icmp_echo_packet src inaddr rand_ip_id rand_icmp_id).drop 20).take 2 = [8, 0] ∧
    ((icmp_echo_packet src inaddr rand_ip_id rand_icmp_id).drop 26).take 2 = [0, 0] ∧
    (icmp_echo_packet src inaddr rand_ip_id rand_icmp_id).drop 28 = List.replicate 12 0 := by
  have e0 : byte_of 0 0 = 0 := by decide
  have e1 : byte_of 0 1 = 0 := by decide
  have e2 : byte_of (5 % 16 + 16 * (4 % 16)) 0 = 0x45 := by decide
  have e3 : byte_of 0x40 0 = 64 := by decide
  have e4 : byte_of IPPROTO_ICMP 0 = 1 := by decide
  have e5 : byte_of ICMP_ECHO 0 = 8 := by decide
  refine ⟨?_, ?_, ?_, ?_, ?_, ?_⟩ <;>
    simp [icmp_echo_packet, ip.mem, icmp.mem, mem16, mem32, e0, e1, e2, e3, e4, e5,
      List.replicate]

theorem icmp_echo_packet_cksum (src inaddr : in_addr) (rand_ip_id rand_icmp_id : Nat) :
    ((icmp_echo_packet src inaddr rand_ip_id rand_icmp_id).drop 22).take 2 =
      mem16 (np_in_cksum
        (((icmp_echo_packet src inaddr rand_ip_id rand_icmp_id).drop 20).take 2 ++ [0, 0] ++
          (icmp_echo_packet src inaddr rand_ip_id rand_icmp_id).drop 24)) := by
  have e0 : byte_of 0 0 = 0 := by decide
  have e1 : byte_of 0 1 = 0 := by decide
  simp [icmp_echo_packet, ip.mem, icmp.mem, mem16, mem32, e0, e1, List.replicate]
theorem icmp_echo_packet_cksum_header (src inaddr : in_addr) (rand_ip_id rand_icmp_id : Nat) :
    np_in_cksum
        (((icmp_echo_packet src inaddr rand_ip_id rand_icmp_id).drop 20).take 2 ++ [0, 0] ++
          (icmp_echo_packet src inaddr rand_ip_id rand_icmp_id).drop 24) =
      np_in_cksum
        (((icmp_echo_packet src inaddr rand_ip_id rand_icmp_id).drop 20).take 2 ++ [0, 0] ++
          ((icmp_echo_packet src inaddr rand_ip_id rand_icmp_id).drop 24).take 4) := by
  have e : ((icmp_echo_packet src inaddr rand_ip_id rand_icmp_id).drop 20).take 2 ++ [0, 0] ++
        (icmp_echo_packet src inaddr rand_ip_id rand_icmp_id).drop 24 =
      (((icmp_echo_packet src inaddr rand_ip_id rand_icmp_id).drop 20).take 2 ++ [0, 0] ++
        ((icmp_echo_packet src inaddr rand_ip_id rand_icmp_id).drop 24).take 4) ++
        List.replicate (2 * 6) 0 := by
    simp [icmp_echo_packet, ip.mem, icmp.mem, mem16, mem32, List.replicate]
  rw [e]
  exact np_in_cksum_zero_tail _ 6
    (by simp [icmp_echo_packet, ip.mem, icmp.mem, mem16, mem32, List.replicate])

theorem icmp_echo_packet_valid (src inaddr : in_addr) (rand_ip_id rand_icmp_id : Nat) :
    np_in_cksum ((icmp_echo_packet src inaddr rand_ip_id rand_icmp_id).take 20) = 0 ∧
      np_in_cksum ((icmp_echo_packet src inaddr rand_ip_id rand_icmp_id).drop 20) = 0 := by
  constructor
  · have e : (icmp_echo_packet src inaddr rand_ip_id rand_icmp_id).take 20 =
        with_cksum_field
          ([byte_of (5 % 16 + 16 * (4 % 16)) 0, byte_of 0 0] ++ mem16 (htons 40) ++
            mem16 rand_ip_id ++ mem16 (htons 0) ++ [byte_of 0x40 0, byte_of IPPROTO_ICMP 0])
          (mem32 src.val ++ mem32 inaddr.val)
          (np_in_cksum (with_cksum_field
            ([byte_of (5 % 16 + 16 * (4 % 16)) 0, byte_of 0 0] ++ mem16 (htons 40) ++
              mem16 rand_ip_id ++ mem16 (htons 0) ++ [byte_of 0x40 0, byte_of IPPROTO_ICMP 0])
            (mem32 src.val ++ mem32 inaddr.val) 0)) := by
      simp [icmp_echo_packet, ip.mem, icmp.mem, mem16, mem32, with_cksum_field]
    rw [e]
    exact np_in_cksum_field_valid_of_length _ _ (by simp [mem16]) (by simp [mem16, mem32])
  · have e : (icmp_echo_packet src inaddr rand_ip_id rand_icmp_id).drop 20 =
        with_cksum_field [byte_of ICMP_ECHO 0, byte_of 0 0]
          (mem16 rand_icmp_id ++ mem16 0 ++ List.replicate 12 0)
          (np_in_cksum (with_cksum_field [byte_of ICMP_ECHO 0, byte_of 0 0]
            (mem16 rand_icmp_id ++ mem16 0 ++ List.replicate 12 0) 0)) := by
      simp [icmp_echo_packet, ip.mem, icmp.mem, mem16, mem32, with_cksum_field, List.replicate]
    rw [e]
    exact np_in_cksum_field_valid_of_length _ _ (by simp) (by simp [mem16])
/-- C11, refuted as stated: for the v4-mapped host 10.0.0.5, with the
interfaces lo and eth0 (10.0.0.10) and rand yielding 0 and 7919, send_icmps
hands one datagram to sendto. It has 40 bytes, not 20 + 8, and its IP
total-length field (bytes 2 and 3) is 40, not 20 + 8: the 8-byte ICMP header is
followed by 12 zero bytes. -/
theorem send_icmps_sends_40_bytes :
    IN6_IS_ADDR_V4MAPPED host_10_0_0_5.addr6 = true ∧
    send_icmps env_two_ifs 0 "10.0.0.5" host_10_0_0_5 =
      some ([[69, 0, 0, 40, 0, 0, 0, 0, 64, 1, 102, 199, 10, 0, 0, 10, 10, 0, 0, 5,
              8, 0, 8, 225, 239, 30, 0, 0,
              0, 0, 0, 0, 0, 0, 0, 0, 0, 0, 0, 0]], 2) ∧
    ([69, 0, 0, 40, 0, 0, 0, 0, 64, 1, 102, 199, 10, 0, 0, 10, 10, 0, 0, 5,
      8, 0, 8, 225, 239, 30, 0, 0,
      0, 0, 0, 0, 0, 0, 0, 0, 0, 0, 0, 0] : Packet).length ≠ 20 + 8 ∧
    ip_len_of [69, 0, 0, 40, 0, 0, 0, 0, 64, 1, 102, 199, 10, 0, 0, 10, 10, 0, 0, 5,
      8, 0, 8, 225, 239, 30, 0, 0,
      0, 0, 0, 0, 0, 0, 0, 0, 0, 0, 0, 0] ≠ 20 + 8 := by
  decide

/-- C11, amended: for every source and destination address the datagram
send_icmps builds and hands to sendto has 40 bytes: a 20-byte IPv4 header
(version 4, header length 5, type-of-service 0, TTL 64, protocol ICMP, the two
addresses), an 8-byte ICMP echo-request header (type 8, code 0, sequence 0) and
12 zero bytes. The IP total-length field is 40, like the byte count. The ICMP
checksum field is np_in_cksum over the 20 bytes after the IP header with the
field zeroed, which equals np_in_cksum over the 8 ICMP header bytes with the
field zeroed. A call of send_icmps for a v4-mapped host that returns sends
exactly this one datagram. -/
theorem icmp_echo_probe :
    (∀ (src inaddr : in_addr) (rand_ip_id rand_icmp_id : Nat),
      (icmp_echo_packet src inaddr rand_ip_id rand_icmp_id).length = 40 ∧
      ip_len_of (icmp_echo_packet src inaddr rand_ip_id rand_icmp_id) = 40 ∧
      (icmp_echo_packet src inaddr rand_ip_id rand_icmp_id).take 2 = [0x45, 0] ∧
      ((icmp_echo_packet src inaddr rand_ip_id rand_icmp_id).drop 8).take 2 = [64, 1] ∧
      ((icmp_echo_packet src inaddr rand_ip_id rand_icmp_id).drop 12).take 8 =
        mem32 src.val ++ mem32 inaddr.val ∧
      ((icmp_echo_packet src inaddr rand_ip_id rand_icmp_id).drop 20).take 2 = [8, 0] ∧
      ((icmp_echo_packet src inaddr rand_ip_id rand_icmp_id).drop 26).take 2 = [0, 0] ∧
      (icmp_echo_packet src inaddr rand_ip_id rand_icmp_id).drop 28 = List.replicate 12 0 ∧
      ((icmp_echo_packet src inaddr rand_ip_id rand_icmp_id).drop 22).take 2 =
        mem16 (np_in_cksum
          (((icmp_echo_packet src inaddr rand_ip_id rand_icmp_id).drop 20).take 2 ++ [0, 0] ++
            (icmp_echo_packet src inaddr rand_ip_id rand_icmp_id).drop 24)) ∧
      ((icmp_echo_packet src inaddr rand_ip_id rand_icmp_id).drop 22).take 2 =
        mem16 (np_in_cksum
          (((icmp_echo_packet src inaddr rand_ip_id rand_icmp_id).drop 20).take 2 ++ [0, 0] ++
            ((icmp_echo_packet src inaddr rand_ip_id rand_icmp_id).drop 24).take 4))) ∧
    (∀ (env : Env) (n : Nat) (key : String) (value : gvm_host_t) (r : List Packet × Nat),
      IN6_IS_ADDR_V4MAPPED value.addr6 = true → send_icmps env n key value = some r →
      ∃ src, r = ([icmp_echo_packet src value.addr6.s6_addr32_3 (env.rand n)
        (env.rand (n + 1))], n + 2)) := by
  constructor
  · intro src inaddr rand_ip_id rand_icmp_id
    obtain ⟨h1, h2, h3, h4, h5, h6⟩ := icmp_echo_packet_header src inaddr rand_ip_id rand_icmp_id
    have hc := icmp_echo_packet_cksum src inaddr rand_ip_id rand_icmp_id
    refine ⟨icmp_echo_packet_length _ _ _ _, icmp_echo_packet_ip_len _ _ _ _, h1, h2, h3, h4, h5,
      h6, hc, ?_⟩
    rw [hc, icmp_echo_packet_cksum_header]
  · intro env n key value r hv4 h
    unfold send_icmps at h
    simp only [hv4, bne_self_eq_false, Bool.false_eq_true, if_false] at h
    split at h
    · cases h
    · cases h; exact ⟨_, rfl⟩

theorem icmp_echo_probe_witness :
    IN6_IS_ADDR_V4MAPPED host_127_0_0_1.addr6 = true ∧
      send_icmps env_two_ifs 0 "127.0.0.1" host_127_0_0_1 =
        some ([icmp_echo_packet 0x0100007F 0x0100007F 0 7919], 2) ∧
      ∃ src, (([icmp_echo_packet 0x0100007F 0x0100007F 0 7919], 2) : List Packet × Nat) =
        ([icmp_echo_packet src host_127_0_0_1.addr6.s6_addr32_3 (env_two_ifs.rand 0)
          (env_two_ifs.rand (0 + 1))], 0 + 2) :=
  ⟨by decide, by decide,
    icmp_echo_probe.2 env_two_ifs 0 "127.0.0.1" host_127_0_0_1 _ (by decide) (by decide)⟩

end AliveService
